import Mathlib

/-!
# esh job control: a shallow embedding of `src/esh.c`

The job table (`jobs_list`), the child-status reaper (`esh_sighandler`,
`possible_job_update`), the job-control built-ins (`killJob`, `stopJob`,
`showJobs`, `fg`, `bg`) and the read-eval loop of `main` are embedded as
functions over an explicit shell state.  The intrusive list is a `List`; the
answers of the operating system (`fork`, `waitpid`, return codes) are taken
from an oracle, in call order.  The code a forked child runs before `execvp`
is embedded as a function on descriptor tables.
-/

namespace Esh

/-! ## Data model (`esh.h` is not part of the sources: field names as used in `esh.c`) -/

/-- The three job states used by `esh.c`. -/
inductive job_status where
  | FOREGROUND
  | BACKGROUND
  | STOPPED
deriving DecidableEq, Repr

/-- Integer values of the enumerators of `enum job_status`; the declaration is in
`esh.h`, so the numbering is a parameter. -/
structure job_status_values where
  FOREGROUND : Int
  BACKGROUND : Int
  STOPPED : Int
deriving DecidableEq, Repr

/-- The numbering is that of an enumeration: the three enumerators are distinct. -/
def job_status_values.distinct (V : job_status_values) : Prop :=
  V.FOREGROUND ≠ V.BACKGROUND ∧ V.FOREGROUND ≠ V.STOPPED ∧ V.BACKGROUND ≠ V.STOPPED

instance (V : job_status_values) : Decidable V.distinct := by
  unfold job_status_values.distinct; infer_instance

/-- The numbering C gives `enum { FOREGROUND, BACKGROUND, STOPPED }`. -/
def c_enum : job_status_values := ⟨0, 1, 2⟩

/-- The integer stored in `status` for a state. -/
def job_status_values.val (V : job_status_values) : job_status → Int
  | .FOREGROUND => V.FOREGROUND
  | .BACKGROUND => V.BACKGROUND
  | .STOPPED => V.STOPPED

/-- One stage of a pipeline (`struct esh_command`); `argv` without its NULL terminator. -/
structure esh_command where
  argv : List String
  iored_input : Option String
  iored_output : Option String
  append_to_output : Bool
deriving DecidableEq, Repr

/-- A pipeline / job (`struct esh_pipeline`).  The parser fills `commands` and
`bg_job`; `jid`, `pgrp` and `status` hold whatever the parser left there until
`main` assigns them. -/
structure esh_pipeline where
  commands : List esh_command
  jid : Int
  pgrp : Int
  status : job_status
  bg_job : Bool
deriving DecidableEq, Repr

/-- The command `list_entry (list_begin (&pipe->commands), ...)`.  The parser never
yields an empty pipeline; for one, the C code would read past the list. -/
def first_command (pipe : esh_pipeline) : esh_command :=
  pipe.commands.headD ⟨[], none, none, false⟩

/-- The C expression `cmd->argv[i]`: `none` is the terminating NULL. -/
def argv_at (cmd : esh_command) (i : Nat) : Option String := cmd.argv.get? i

/-- What `printf ("%s")` writes for a string argument (glibc writes `(null)` for NULL). -/
def fmt_s (s : Option String) : String := s.getD "(null)"

/-- The value an `int` holds when the arithmetic result is `n`: the 32-bit two's
complement value congruent to `n` (the compiled code wraps around; ISO C leaves signed
overflow undefined). -/
def c_int (n : Int) : Int := (n + 2147483648) % 4294967296 - 2147483648

/-- The value `strtol` returns for the mathematical value `n` with a 64-bit `long`:
out-of-range values are clamped to `LONG_MIN` and `LONG_MAX`. -/
def c_strtol_clamp (n : Int) : Int :=
  if n < -9223372036854775808 then -9223372036854775808
  else if 9223372036854775807 < n then 9223372036854775807
  else n

/-- What `printf ("%d")` writes. -/
def fmt_d (n : Int) : String := toString n

/-! ## Wait-status macros (glibc `sys/wait.h`) -/

/-- `WIFEXITED (status)`: `((status) & 0x7f) == 0`. -/
def WIFEXITED (status : Int) : Bool := status % 128 == 0

/-- `WIFSTOPPED (status)`: `((status) & 0xff) == 0x7f`. -/
def WIFSTOPPED (status : Int) : Bool := status % 256 == 127

/-! ## Output lines -/

/-- `printf ("\n[%d] DONE\n", pipe->jid)`. -/
def done_line (pipe : esh_pipeline) : String := "\n[" ++ fmt_d pipe.jid ++ "] DONE\n"

/-- `printf ("[%d] Stopped   (%s %s)\n", jid, cmd->argv[0], cmd->argv[1])`. -/
def stopped_line (pipe : esh_pipeline) : String :=
  "[" ++ fmt_d pipe.jid ++ "] Stopped   (" ++ fmt_s (argv_at (first_command pipe) 0) ++ " "
    ++ fmt_s (argv_at (first_command pipe) 1) ++ ")\n"

/-- `printf ("[%d] Running   (%s %s)\n", jid, cmd->argv[0], cmd->argv[1])`. -/
def running_line (pipe : esh_pipeline) : String :=
  "[" ++ fmt_d pipe.jid ++ "] Running   (" ++ fmt_s (argv_at (first_command pipe) 0) ++ " "
    ++ fmt_s (argv_at (first_command pipe) 1) ++ ")\n"

/-! ## Child-status reaper -/

/-- The `WIFEXITED` loop of `possible_job_update` (lines 110-128): table left in
`jobs_list` and lines printed.  A matching job that is not FOREGROUND is announced,
removed, and the loop breaks; a matching FOREGROUND job is removed and the loop goes
on with the element that followed it. -/
def possible_job_update_exited (pid : Int) : List esh_pipeline → List esh_pipeline × List String
  | [] => ([], [])
  | pipe :: rest =>
    if pipe.pgrp = pid then
      if pipe.status ≠ job_status.FOREGROUND then (rest, [done_line pipe])
      else possible_job_update_exited pid rest
    else
      ((pipe :: (possible_job_update_exited pid rest).1), (possible_job_update_exited pid rest).2)

/-- The `WIFSTOPPED` loop of `possible_job_update` (lines 134-147). -/
def possible_job_update_stopped (pid : Int) : List esh_pipeline → List esh_pipeline × List String
  | [] => ([], [])
  | pipe :: rest =>
    if pipe.pgrp = pid then
      ({ pipe with status := job_status.STOPPED } :: rest, [stopped_line pipe])
    else
      ((pipe :: (possible_job_update_stopped pid rest).1), (possible_job_update_stopped pid rest).2)

/-- The function `possible_job_update (status, pid)` on the job table: new table and
lines printed. -/
def possible_job_update (status : Int) (pid : Int) (jobs_list : List esh_pipeline) :
    List esh_pipeline × List String :=
  if WIFEXITED status then possible_job_update_exited pid jobs_list
  else if WIFSTOPPED status then possible_job_update_stopped pid jobs_list
  else (jobs_list, [])

/-- The `WIFEXITED` loop of `esh_sighandler` (lines 58-76). -/
def esh_sighandler_exited (pid : Int) : List esh_pipeline → List esh_pipeline × List String
  | [] => ([], [])
  | pipe :: rest =>
    if pipe.pgrp = pid then
      if pipe.status ≠ job_status.FOREGROUND then (rest, [done_line pipe])
      else esh_sighandler_exited pid rest
    else
      ((pipe :: (esh_sighandler_exited pid rest).1), (esh_sighandler_exited pid rest).2)

/-- The `WIFSTOPPED` loop of `esh_sighandler` (lines 83-92): nothing is printed. -/
def esh_sighandler_stopped (pid : Int) : List esh_pipeline → List esh_pipeline
  | [] => []
  | pipe :: rest =>
    if pipe.pgrp = pid then { pipe with status := job_status.STOPPED } :: rest
    else pipe :: esh_sighandler_stopped pid rest

/-- The body of the `while` loop of `esh_sighandler` for one reaped
`(pid, child_status)`. -/
def esh_sighandler_event (child_status : Int) (pid : Int) (jobs_list : List esh_pipeline) :
    List esh_pipeline × List String :=
  if WIFEXITED child_status then esh_sighandler_exited pid jobs_list
  else if WIFSTOPPED child_status then (esh_sighandler_stopped pid jobs_list, [])
  else (jobs_list, [])

/-- The function `esh_sighandler`: `events` are the `(pid, child_status)` pairs that the
successive `waitpid (-1, ..., WUNTRACED | WNOHANG)` calls return with `pid > 0`. -/
def esh_sighandler : List (Int × Int) → List esh_pipeline → List esh_pipeline × List String
  | [], jobs_list => (jobs_list, [])
  | (pid, child_status) :: events, jobs_list =>
    let r := esh_sighandler_event child_status pid jobs_list
    let r2 := esh_sighandler events r.1
    (r2.1, r.2 ++ r2.2)

/-! ## `showJobs` -/

/-- The C operator `||` on integers. -/
def c_lor (a b : Int) : Int := if a ≠ 0 ∨ b ≠ 0 then 1 else 0

/-- The function `showJobs` (lines 229-248): the lines printed, in order; `jobs_list` is
only read.  The first test is `job->status == (FOREGROUND || BACKGROUND)`. -/
def showJobs (V : job_status_values) : List esh_pipeline → List String
  | [] => []
  | job :: rest =>
    if V.val job.status = c_lor V.FOREGROUND V.BACKGROUND then
      running_line job :: showJobs V rest
    else if V.val job.status = V.STOPPED then
      stopped_line job :: showJobs V rest
    else showJobs V rest

/-! ## Shell state and operating-system answers -/

/-- The signals the shell sends with `kill`. -/
inductive Signal where
  | SIGTERM
  | SIGSTOP
  | SIGCONT
deriving DecidableEq, Repr

/-- What the shell does to the outside world, in program order. -/
inductive Event where
  | printf (s : String)
  | kill (pid : Int) (sig : Signal)
  | fork (pid : Int) (cmd : esh_command)
  | setpgid (pid : Int) (pgrp : Int)
  | tcsetpgrp (pgrp : Int)
  | waitpid (pid : Int)
  | block_SIGCHLD
  | unblock_SIGCHLD
  | sethandler_SIGCHLD
  | fatal_error (msg : String)
deriving DecidableEq, Repr

/-- Everything `esh.c` takes from outside its own text: the numbering of
`enum job_status`, the loaded plug-ins (their `process_builtin` hooks), and the answers
of the operating system.  The `n`-th call of `fork` returns `fork n`; the `n`-th
blocking `waitpid` returns `(waitpid n).1` and stores `(waitpid n).2` in `status`; the
`n`-th of the calls whose return code the shell tests (`kill`, `tcsetpgrp`, `setpgid`,
`close`) returns `rc n`.  `uninit_pid` is what the local `pid` of `main` holds before
the first `fork` of a pipeline assigns it. -/
structure World where
  status_values : job_status_values
  esh_plugin_list : List (esh_command → Bool)
  getpgrp : Int
  uninit_pid : Int
  fork : Nat → Int
  waitpid : Nat → Int × Int
  rc : Nat → Int

/-- The state of the shell process: the global `jobs_list`, what it has done so far,
whether SIGCHLD is blocked and the handler installed, and how many answers of each kind
it has consumed. -/
structure Shell where
  jobs_list : List esh_pipeline
  log : List Event
  sigchld_blocked : Bool
  handler_installed : Bool
  nfork : Nat
  nwait : Nat
  nrc : Nat
deriving DecidableEq, Repr

/-- The state after `list_init (&jobs_list)` at the start of `main`. -/
def Shell.init : Shell := ⟨[], [], false, false, 0, 0, 0⟩

/-- Result of running a piece of the shell: it goes on with a value and a state, or the
process has ended with an exit code. -/
inductive Ctl (α : Type) where
  | running (a : α) (st : Shell)
  | exited (code : Int) (st : Shell)
deriving DecidableEq, Repr

/-- A piece of shell code. -/
def M (α : Type) : Type := Shell → Ctl α

/-- Sequencing: nothing runs after the process has ended. -/
def M.bind {α β : Type} (m : M α) (f : α → M β) : M β := fun st =>
  match m st with
  | .running a st1 => f a st1
  | .exited code st1 => .exited code st1

instance : Monad M where
  pure := fun a st => .running a st
  bind := M.bind

/-- The value of `jobs_list`. -/
def get_jobs : M (List esh_pipeline) := fun st => .running st.jobs_list st

/-- Store a new value of `jobs_list`. -/
def set_jobs (jobs : List esh_pipeline) : M Unit := fun st =>
  .running () { st with jobs_list := jobs }

/-- Record an event. -/
def emit (e : Event) : M Unit := fun st => .running () { st with log := st.log ++ [e] }

/-- Record the lines written by `printf`. -/
def print_lines (lines : List String) : M Unit := fun st =>
  .running () { st with log := st.log ++ lines.map Event.printf }

/-- The next tested return code. -/
def next_rc (w : World) : M Int := fun st => .running (w.rc st.nrc) { st with nrc := st.nrc + 1 }

/-- The call `exit (code)`. -/
def exit_shell {α : Type} (code : Int) : M α := fun st => .exited code st

/-- Modelled from the spec: `esh_sys_fatal_error` (in `esh-sys-utils.c`, not part of the
sources) prints a descriptive message and exits the shell. -/
def esh_sys_fatal_error {α : Type} (msg : String) : M α := do
  emit (.fatal_error msg)
  exit_shell 1

/-- The call `esh_signal_block (SIGCHLD)`. -/
def esh_signal_block_SIGCHLD : M Unit := fun st =>
  .running () { st with sigchld_blocked := true, log := st.log ++ [.block_SIGCHLD] }

/-- The call `esh_signal_unblock (SIGCHLD)`. -/
def esh_signal_unblock_SIGCHLD : M Unit := fun st =>
  .running () { st with sigchld_blocked := false, log := st.log ++ [.unblock_SIGCHLD] }

/-- The call `kill (pid, sig)`: its return code. -/
def sys_kill (w : World) (pid : Int) (sig : Signal) : M Int := do
  emit (.kill pid sig)
  next_rc w

/-- The call `waitpid (pid, &status, WUNTRACED)`: return value and stored status. -/
def sys_waitpid (w : World) (pid : Int) : M (Int × Int) := fun st =>
  .running (w.waitpid st.nwait) { st with nwait := st.nwait + 1, log := st.log ++ [.waitpid pid] }

/-- The call `fork ()` as the shell process sees it. -/
def sys_fork (w : World) (cmd : esh_command) : M Int := fun st =>
  .running (w.fork st.nfork)
    { st with nfork := st.nfork + 1, log := st.log ++ [.fork (w.fork st.nfork) cmd] }

/-- The function `give_terminal_to (pgrp, shell_termios)` (lines 162-172); the SIGTTOU
mask and the terminal attributes are not part of the state. -/
def give_terminal_to (w : World) (pgrp : Int) : M Unit := do
  emit (.tcsetpgrp pgrp)
  let rc ← next_rc w
  if rc = -1 then
    esh_sys_fatal_error "tcsetpgrp: "
  else
    pure ()

/-- The test `if ((id = waitpid (...)) < 0) printf ("ERROR");` after a blocking wait. -/
def report_wait_error (id : Int) : M Unit :=
  if id < 0 then print_lines ["ERROR"] else pure ()

/-- Run `possible_job_update (status, pid)` on the state. -/
def run_possible_job_update (status : Int) (pid : Int) : M Unit := do
  let jobs ← get_jobs
  set_jobs (possible_job_update status pid jobs).1
  print_lines (possible_job_update status pid jobs).2

/-! ## Built-ins -/

/-- The search `for (e = list_begin ...) if (job->jid == jobID) { ...; break; }` shared
by `killJob`, `stopJob`, `fg` and `bg`: the jobs before the first one with that jid,
that job, and the jobs after it. -/
def find_job (jobID : Int) : List esh_pipeline →
    Option (List esh_pipeline × esh_pipeline × List esh_pipeline)
  | [] => none
  | job :: rest =>
    if job.jid = jobID then some ([], job, rest)
    else
      match find_job jobID rest with
      | none => none
      | some (before, found, after) => some (job :: before, found, after)

/-- The function `killJob (jobID)` (lines 181-196). -/
def killJob (w : World) (jobID : Int) : M Unit := do
  let jobs ← get_jobs
  match find_job jobID jobs with
  | none => pure ()
  | some (before, job, after) =>
    let rc ← sys_kill w (-job.pgrp) .SIGTERM
    if rc < 0 then
      esh_sys_fatal_error "Error kill: killJob SIGTERM Error"
    else
      set_jobs (before ++ after)

/-- The function `stopJob (jobID)` (lines 205-220). -/
def stopJob (w : World) (jobID : Int) : M Unit := do
  let jobs ← get_jobs
  match find_job jobID jobs with
  | none => pure ()
  | some (before, job, after) =>
    set_jobs (before ++ { job with status := job_status.BACKGROUND } :: after)
    let rc ← sys_kill w (-job.pgrp) .SIGSTOP
    if rc < 0 then
      esh_sys_fatal_error "Error stop: stopJob SIGSTOP Error"
    else
      pure ()

/-- Run `showJobs ()` on the state. -/
def run_showJobs (w : World) : M Unit := do
  let jobs ← get_jobs
  print_lines (showJobs w.status_values jobs)

/-- The function `fg (jobID)` (lines 257-287). -/
def fg (w : World) (jobID : Int) : M Unit := do
  esh_signal_block_SIGCHLD
  let jobs ← get_jobs
  match find_job jobID jobs with
  | none => pure ()
  | some (before, job, after) =>
    print_lines [fmt_s (argv_at (first_command job) 0) ++ " "
      ++ fmt_s (argv_at (first_command job) 1) ++ "\n"]
    set_jobs (before ++ { job with status := job_status.FOREGROUND } :: after)
    let rc ← sys_kill w (-job.pgrp) .SIGCONT
    if rc < 0 then
      esh_sys_fatal_error "Error fg: fg SIGCONT Error"
    else
      give_terminal_to w job.pgrp
      let r ← sys_waitpid w job.pgrp
      report_wait_error r.1
      run_possible_job_update r.2 r.1
      give_terminal_to w w.getpgrp
      esh_signal_unblock_SIGCHLD

/-- The function `bg (jobID)` (lines 296-315). -/
def bg (w : World) (jobID : Int) : M Unit := do
  let jobs ← get_jobs
  match find_job jobID jobs with
  | none => pure ()
  | some (before, job, after) =>
    set_jobs (before ++ { job with status := job_status.BACKGROUND } :: after)
    let rc ← sys_kill w (-job.pgrp) .SIGCONT
    if rc < 0 then
      esh_sys_fatal_error "Error bg: bg SIGCONT Error"
    else
      print_lines ["[" ++ fmt_d job.jid ++ "] " ++ fmt_s (argv_at (first_command job) 0) ++ "\n"]

/-- The function `esh_isBuiltIn (cmd)` (lines 32-39). -/
def esh_isBuiltIn (cmd : Option String) : Bool :=
  cmd == some "kill" || cmd == some "stop" || cmd == some "jobs" || cmd == some "fg"
    || cmd == some "bg"

/-- The digits part of `atoi`: the value of the leading decimal digits. -/
def atoi_digits : Int → List Char → Int
  | acc, [] => acc
  | acc, c :: cs => if c.isDigit then atoi_digits (acc * 10 + (c.toNat - 48 : Nat)) cs else acc

/-- The libc predicate `isspace` in the C locale. -/
def c_isspace (c : Char) : Bool :=
  c == ' ' || c == '\t' || c == '\n' || c.toNat == 11 || c.toNat == 12 || c == '\r'

/-- The value `strtol (s, NULL, 10)` parses before any clamping: white space, an optional
sign, decimal digits. -/
def atoi_value (s : String) : Int :=
  match s.toList.dropWhile c_isspace with
  | '-' :: cs => - atoi_digits 0 cs
  | '+' :: cs => atoi_digits 0 cs
  | cs => atoi_digits 0 cs

/-- The libc function `atoi`, which is `(int) strtol (s, NULL, 10)`: the parsed value is
clamped to `long` and converted to `int`. -/
def atoi (s : String) : Int := c_int (c_strtol_clamp (atoi_value s))

/-! ## The read-eval loop of `main` -/

/-- The plug-in loop (lines 472-482): `ranPlugin` after every plug-in was offered `cmd`. -/
def run_plugins (cmd : esh_command) : List (esh_command → Bool) → Bool → Bool
  | [], ranPlugin => ranPlugin
  | plugin :: rest, ranPlugin => run_plugins cmd rest (if plugin cmd then true else ranPlugin)

/-- The dispatch on the name of a built-in (lines 496-543). -/
def run_builtin (w : World) (cmd : esh_command) : M Unit :=
  if argv_at cmd 0 = some "kill" then
    match argv_at cmd 1 with
    | none => print_lines ["kill: usage: kill jobid\n"]
    | some arg => killJob w (atoi arg)
  else if argv_at cmd 0 = some "stop" then
    match argv_at cmd 1 with
    | none => print_lines ["stop: usage: stop jobid\n"]
    | some arg => stopJob w (atoi arg)
  else if argv_at cmd 0 = some "jobs" then
    run_showJobs w
  else if argv_at cmd 0 = some "bg" then
    match argv_at cmd 1 with
    | none => print_lines ["bg: usage: bg jobid\n"]
    | some arg => bg w (atoi arg)
  else if argv_at cmd 0 = some "fg" then
    match argv_at cmd 1 with
    | none => print_lines ["fg: usage: fg jobid\n"]
    | some arg => fg w (atoi arg)
  else
    pure ()

/-- The locals of one iteration of the pipeline loop of `main` that the shell process
reads again: the pipeline being run (`pipeline->pgrp` is written during the iteration),
`ranBuiltIn`, `ranPlugin`, `pid` and `count`. -/
structure Locals where
  pipeline : esh_pipeline
  ranBuiltIn : Bool
  ranPlugin : Bool
  pid : Int
  count : Nat
deriving DecidableEq, Repr

/-- The body of the command loop (lines 470-653) in the shell process.  A `fork` that
returns 0 is the child: it is replaced by the command or ends with `exit (0)`
(lines 552-622); a negative one makes `main` return -1. -/
def run_command (w : World) (cmd : esh_command) (loc : Locals) : M Locals := do
  let ranPlugin := run_plugins cmd w.esh_plugin_list loc.ranPlugin
  if !ranPlugin then
    if esh_isBuiltIn (argv_at cmd 0) then
      run_builtin w cmd
      pure { loc with ranPlugin := ranPlugin, ranBuiltIn := true, count := loc.count + 1 }
    else
      esh_signal_block_SIGCHLD
      let pid ← sys_fork w cmd
      if pid = 0 then
        exit_shell 0
      else if pid < 0 then
        print_lines ["There was an error forking the child process\n"]
        exit_shell (-1)
      else
        let rc ← next_rc w
        if rc < 0 then
          esh_sys_fatal_error "Error close: Couldn't close pipe1[1] in parent"
        else
          let pgrp := if loc.pipeline.pgrp = -1 then pid else loc.pipeline.pgrp
          emit (.setpgid pid pgrp)
          let rc2 ← next_rc w
          if rc2 < 0 then
            esh_sys_fatal_error "Error setpgid: Couldn't set process group in parent"
          else
            pure { loc with pipeline := { loc.pipeline with pgrp := pgrp },
                            ranPlugin := ranPlugin, pid := pid, count := loc.count + 1 }
  else
    give_terminal_to w w.getpgrp
    pure { loc with ranPlugin := ranPlugin }

/-- The command loop `for (; p != list_end (&pipeline->commands); p = list_next (p))`. -/
def run_commands (w : World) : List esh_command → Locals → M Locals
  | [], loc => pure loc
  | cmd :: rest, loc => do
    let loc1 ← run_command w cmd loc
    run_commands w rest loc1

/-- The clean-up loop over `pipeArray` (lines 661-665). -/
def close_pipes (w : World) : Nat → M Unit
  | 0 => pure ()
  | n + 1 => do
    let rc ← next_rc w
    if rc < 0 then
      esh_sys_fatal_error "Error close: Couldn't close a pipe in the pipeArray"
    else
      close_pipes w n

/-- What one iteration of the pipeline loop leaves behind: the list `cline->pipes`, the
position of `e` for the next test of the loop (`none` after `break`), and, when the
iteration recorded a job, the pipeline it had forked and the element it moved to
`jobs_list`. -/
structure IterationEnd where
  pipes : List esh_pipeline
  next : Option Nat
  forked : Option esh_pipeline
  pushed : Option esh_pipeline
deriving DecidableEq, Repr

/-- The wait of a foreground pipeline (lines 679-697). -/
def wait_foreground (w : World) (pipeline : esh_pipeline) (pid : Int) : M Unit := do
  give_terminal_to w pipeline.pgrp
  let r ← sys_waitpid w pid
  report_wait_error r.1
  run_possible_job_update r.2 r.1
  give_terminal_to w w.getpgrp
  esh_signal_unblock_SIGCHLD

/-- The notice of a background pipeline (lines 707-708). -/
def notify_background (pipeline : esh_pipeline) : M Unit := do
  print_lines ["[" ++ fmt_d pipeline.jid ++ "] " ++ fmt_d pipeline.pgrp ++ "\n"]
  esh_signal_unblock_SIGCHLD

/-- The clean-up `if (!ranBuiltIn) for (i = 0; i < count; i++) close (*pipeArray[i])`
(lines 659-666). -/
def cleanup_pipes (w : World) (loc : Locals) : M Unit :=
  if !loc.ranBuiltIn then close_pipes w loc.count else pure ()

/-- The assignments `pipeline->status = FOREGROUND` (line 673, `!pipeline->bg_job`) and
`pipeline->status = BACKGROUND` (line 703). -/
def with_status (pipeline : esh_pipeline) : esh_pipeline :=
  { pipeline with
    status := if !pipeline.bg_job then job_status.FOREGROUND else job_status.BACKGROUND }

/-- What follows `list_push_back (&jobs_list, e)`: the wait of a foreground pipeline or
the notice of a background one (lines 670-709). -/
def after_push (w : World) (pipeline : esh_pipeline) (pid : Int) : M Unit :=
  if !pipeline.bg_job then wait_foreground w pipeline pid else notify_background pipeline

/-- The body of the pipeline loop after `pipeline->jid = numJobs++; pipeline->pgrp = -1`
(lines 452-716).  `pipes` is `cline->pipes`, `e` is at position `i`, and `pipeline` is
the element there.  `list_pop_front (&cline->pipes)` takes the head of `pipes`, which
`list_push_back` appends to `jobs_list`; `e = list_begin (&cline->pipes)` is position 0
of what is left, and the `e = list_next (e)` of the `for` makes it 1. -/
def run_pipeline (w : World) (pipes : List esh_pipeline) (i : Nat) (pipeline : esh_pipeline) :
    M IterationEnd := do
  let loc ← run_commands w pipeline.commands ⟨pipeline, false, false, w.uninit_pid, 0⟩
  cleanup_pipes w loc
  if !loc.ranBuiltIn && !loc.ranPlugin then
    match pipes.set i (with_status loc.pipeline) with
    | [] => pure ⟨[], none, some (with_status loc.pipeline), none⟩
    | front :: rest =>
      let jobs ← get_jobs
      set_jobs (jobs ++ [front])
      after_push w (with_status loc.pipeline) loc.pid
      if rest.isEmpty then
        pure ⟨rest, none, some (with_status loc.pipeline), some front⟩
      else
        pure ⟨rest, some 1, some (with_status loc.pipeline), some front⟩
  else
    pure ⟨pipes.set i loc.pipeline, some (i + 1), none, none⟩

/-- A record of one iteration of the pipeline loop: the job table when the jid was
assigned, the pipeline after `pipeline->jid = numJobs++; pipeline->pgrp = -1`, and, when
the iteration recorded a job, the pipeline it had forked and the element it moved to
`jobs_list`. -/
structure Iteration where
  jobs_before : List esh_pipeline
  pipeline : esh_pipeline
  forked : Option esh_pipeline
  pushed : Option esh_pipeline
deriving DecidableEq, Repr

/-- The pipeline loop `for (; e != list_end (&cline->pipes); e = list_next (e))`
(lines 443-717), with the iterations it ran.  `none` only when `fuel` runs out.
`numJobs` is an `int`: `numJobs++` leaves `c_int (numJobs + 1)`. -/
def pipes_loop (w : World) :
    Nat → List esh_pipeline → Nat → Int → Shell → Option (List Iteration × Ctl Unit)
  | 0, _, _, _, _ => none
  | fuel + 1, pipes, i, numJobs, st =>
    match pipes.get? i with
    | none => some ([], .running () st)
    | some p =>
      match run_pipeline w pipes i { p with jid := numJobs, pgrp := -1 } st with
      | .exited code st1 =>
        some ([⟨st.jobs_list, { p with jid := numJobs, pgrp := -1 }, none, none⟩],
          .exited code st1)
      | .running r st1 =>
        match r.next with
        | none =>
          some ([⟨st.jobs_list, { p with jid := numJobs, pgrp := -1 }, r.forked, r.pushed⟩],
            .running () st1)
        | some i1 =>
          match pipes_loop w fuel r.pipes i1 (c_int (numJobs + 1)) st1 with
          | none => none
          | some (its, c) =>
            some (⟨st.jobs_list, { p with jid := numJobs, pgrp := -1 }, r.forked, r.pushed⟩
              :: its, c)

/-- The value given to `numJobs` before the pipeline loop (lines 431-440): 1, or the
`int` `job->jid + 1` of the last job. -/
def first_numJobs (jobs_list : List esh_pipeline) : Int :=
  match jobs_list.getLast? with
  | none => 1
  | some job => c_int (job.jid + 1)

/-- Fuel that lets the pipeline loop finish on a command line of `n` pipelines. -/
def line_fuel (n : Nat) : Nat := n * n + n + 1

/-- One iteration of the read-eval loop for a line that was read (lines 414-717);
`cline` is what `shell.parse_command_line` returned (`none` is NULL). -/
def run_line (w : World) (cline : Option (List esh_pipeline)) (st : Shell) :
    Option (List Iteration × Ctl Unit) :=
  match cline with
  | none => some ([], .running () st)
  | some [] => some ([], .running () st)
  | some pipes =>
    pipes_loop w (line_fuel pipes.length) pipes 0 (first_numJobs st.jobs_list)
      { st with handler_installed := true, log := st.log ++ [.sethandler_SIGCHLD] }

/-- What happens to the shell between two reads of a line: a line is read and run, or
SIGCHLD is delivered and `esh_sighandler` reaps `events`. -/
inductive Input where
  | line (cline : Option (List esh_pipeline))
  | sigchld (events : List (Int × Int))
deriving DecidableEq, Repr

/-- Delivery of SIGCHLD: the handler runs when it is installed and the signal is not
blocked; otherwise the children stay unreaped. -/
def deliver_sigchld (events : List (Int × Int)) (st : Shell) : Shell :=
  if st.handler_installed && !st.sigchld_blocked then
    { st with jobs_list := (esh_sighandler events st.jobs_list).1,
              log := st.log ++ (esh_sighandler events st.jobs_list).2.map Event.printf }
  else st

/-- The shell after a sequence of inputs, at the point where the read-eval loop is about
to read the next line. -/
def shell_after (w : World) : List Input → Shell → Option (Ctl Unit)
  | [], st => some (.running () st)
  | .sigchld events :: rest, st => shell_after w rest (deliver_sigchld events st)
  | .line cline :: rest, st =>
    match run_line w cline st with
    | none => none
    | some (_, .exited code st1) => some (.exited code st1)
    | some (_, .running _ st1) => shell_after w rest st1

/-! ## The words of the specification, and the inputs used below -/

/-- The lines the specification gives for `jobs`: a Running line for a FOREGROUND or
BACKGROUND job, a Stopped line for a STOPPED one, one line per job in table order. -/
def showJobs_spec : List esh_pipeline → List String
  | [] => []
  | job :: rest =>
    (if job.status = job_status.STOPPED then stopped_line job else running_line job)
      :: showJobs_spec rest

/-- The job of a pipeline `sleep <arg>`. -/
def sleep_job (jid pgrp : Int) (arg : String) (status : job_status) (bg_job : Bool) :
    esh_pipeline :=
  ⟨[⟨["sleep", arg], none, none, false⟩], jid, pgrp, status, bg_job⟩

/-- A world without plug-ins in which every call succeeds: the shell is in group 50, the
`n`-th `fork` returns `100 + n`, and the blocking waits answer `waitpid`. -/
def world (waitpid : Nat → Int × Int) : World :=
  ⟨c_enum, [], 50, 0, fun n => 100 + n, waitpid, fun _ => 0⟩

/-- A one-command pipeline as the parser returns it, with `x` in the fields `jid` and
`pgrp` that the parser does not set. -/
def parsed (x : Int) (argv : List String) (bg_job : Bool) : esh_pipeline :=
  ⟨[⟨argv, none, none, false⟩], x, x, job_status.FOREGROUND, bg_job⟩

/-- The command line `sleep 10 & sleep 20 & sleep 30 &`. -/
def three_background (x : Int) : List esh_pipeline :=
  [parsed x ["sleep", "10"] true, parsed x ["sleep", "20"] true, parsed x ["sleep", "30"] true]

/-- The state a result carries. -/
def Ctl.state {α : Type} : Ctl α → Shell
  | .running _ st => st
  | .exited _ st => st

/-- The job table after a sequence of inputs from a fresh shell, when the shell is still
running. -/
def jobs_after (w : World) (inputs : List Input) : Option (List esh_pipeline) :=
  match shell_after w inputs Shell.init with
  | some (.running _ st) => some st.jobs_list
  | _ => none

/-- The commands of the children created (the calls of `fork` that returned a child's
pid), in order, among the events of a log. -/
def forked_commands : List Event → List esh_command
  | [] => []
  | .fork pid cmd :: rest => if 0 < pid then cmd :: forked_commands rest else forked_commands rest
  | _ :: rest => forked_commands rest

/-- The lines printed, in order, among the events of a log. -/
def printed : List Event → List String
  | [] => []
  | .printf s :: rest => s :: printed rest
  | _ :: rest => printed rest

/-! ## File descriptors of a pipeline's children (lines 452-456, 548, 566-615, 632-638) -/

/-- The flags of an `open` call of the child: `O_RDONLY` for an input redirection,
`O_CREAT|O_WRONLY|O_TRUNC` or `O_CREAT|O_WRONLY|O_APPEND` for an output redirection. -/
inductive OpenMode where
  | rdonly
  | trunc
  | append
deriving DecidableEq, Repr

/-- What a file descriptor refers to: what descriptor `fd` of the shell referred to when
the pipeline was started (0 is the shell's own standard input, 1 its standard output), an
end of the pipe created for stage `k`, or a file opened by the child. -/
inductive File where
  | inherited (fd : Nat)
  | pipe_read (k : Nat)
  | pipe_write (k : Nat)
  | path (name : String) (mode : OpenMode)
deriving DecidableEq, Repr

/-- The file descriptor `fd` refers to in a descriptor table (`none`: not open).  A table
lists its descriptors from 0 on. -/
def fd_get : List (Option File) → Nat → Option File
  | [], _ => none
  | f :: _, 0 => f
  | _ :: t, fd + 1 => fd_get t fd

/-- The table with descriptor `fd` made to refer to `f`. -/
def fd_set : List (Option File) → Nat → Option File → List (Option File)
  | [], 0, f => [f]
  | [], fd + 1, f => none :: fd_set [] fd f
  | _ :: t, 0, f => f :: t
  | g :: t, fd + 1, f => g :: fd_set t fd f

/-- The lowest descriptor that is not open, the one `open` and `pipe` return. -/
def lowest_free : List (Option File) → Nat
  | [] => 0
  | none :: _ => 0
  | some _ :: t => lowest_free t + 1

/-- The call `open (name, flags)`: the new descriptor and the table, or `none` when it
fails (returns -1); `can_open` tells which files can be opened. -/
def fd_open (can_open : String → Bool) (name : String) (mode : OpenMode)
    (t : List (Option File)) : Option (Nat × List (Option File)) :=
  if can_open name then some (lowest_free t, fd_set t (lowest_free t) (some (.path name mode)))
  else none

/-- The call `dup2 (oldfd, newfd)`: the new table, or `none` when it fails (`oldfd` is not
open). -/
def fd_dup2 (t : List (Option File)) (oldfd newfd : Nat) : Option (List (Option File)) :=
  match fd_get t oldfd with
  | none => none
  | some f => some (fd_set t newfd (some f))

/-- The call `close (fd)`: the new table, or `none` when it fails (`fd` is not open). -/
def fd_close (t : List (Option File)) (fd : Nat) : Option (List (Option File)) :=
  match fd_get t fd with
  | none => none
  | some _ => some (fd_set t fd none)

/-- The input redirection of the child (lines 567-576); a failed `open` leaves -1 in
`fd0`, on which `dup2` fails.  The error is the message of `esh_sys_fatal_error`. -/
def child_input (can_open : String → Bool) (cmd : esh_command) (t : List (Option File)) :
    Except String (List (Option File)) :=
  match cmd.iored_input with
  | none => .ok t
  | some name =>
    match fd_open can_open name .rdonly t with
    | none => .error "Error dup2: Couldn't perform dup2 in input"
    | some (fd0, t1) =>
      match fd_dup2 t1 fd0 0 with
      | none => .error "Error dup2: Couldn't perform dup2 in input"
      | some t2 =>
        match fd_close t2 fd0 with
        | none => .error "Error close: Couldn't close fd0"
        | some t3 => .ok t3

/-- The output redirection of the child (lines 579-598). -/
def child_output (can_open : String → Bool) (cmd : esh_command) (t : List (Option File)) :
    Except String (List (Option File)) :=
  match cmd.iored_output with
  | none => .ok t
  | some name =>
    match fd_open can_open name (if cmd.append_to_output then .append else .trunc) t with
    | none => .error "Error dup2: Couldn't perform dup2 in output"
    | some (fd1, t1) =>
      match fd_dup2 t1 fd1 1 with
      | none => .error "Error dup2: Couldn't perform dup2 in output"
      | some t2 =>
        match fd_close t2 fd1 with
        | none => .error "Error close: Couldn't close fd1"
        | some t3 => .ok t3

/-- The conditional `if (list_next (p) != cmdTail && piped) dup2 (pipe1[1], 1)`
(lines 604-608). -/
def child_pipe_out (pipe1 : Nat × Nat) (not_last piped : Bool) (t : List (Option File)) :
    Except String (List (Option File)) :=
  if not_last && piped then
    match fd_dup2 t pipe1.2 1 with
    | none => .error "Error dup2: Couldn't perform dup2 for pipe1"
    | some t1 => .ok t1
  else .ok t

/-- The closing of both ends of the current pipe in the child (lines 611-615). -/
def child_close (pipe1 : Nat × Nat) (t : List (Option File)) :
    Except String (List (Option File)) :=
  match fd_close t pipe1.1 with
  | none => .error "Error close: Couldn't close pipe1[0] in child"
  | some t1 =>
    match fd_close t1 pipe1.2 with
    | none => .error "Error close: Couldn't close pipe1[1] in child"
    | some t2 => .ok t2

/-- The pipe wiring of the child (lines 601-615): `dup2 (fd2, 0)`, then the write end
onto standard output when the stage is not the last one, then the two `close`. -/
def child_pipes (fd2 : Nat) (pipe1 : Nat × Nat) (not_last piped : Bool)
    (t : List (Option File)) : Except String (List (Option File)) :=
  match fd_dup2 t fd2 0 with
  | none => .error "Error dup2: Couldn't perform dup2 for piping"
  | some t1 =>
    match child_pipe_out pipe1 not_last piped t1 with
    | .error msg => .error msg
    | .ok t2 => child_close pipe1 t2

/-- The descriptor table of the child just before `execvp` (lines 566-615), from the
table it inherits; `fd2` and `pipe1` are the shell's variables at the `fork`, and
`not_last` is `list_next (p) != cmdTail`. -/
def child_fds (can_open : String → Bool) (cmd : esh_command) (fd2 : Nat) (pipe1 : Nat × Nat)
    (not_last piped : Bool) (t : List (Option File)) : Except String (List (Option File)) :=
  match child_input can_open cmd t with
  | .error msg => .error msg
  | .ok t1 =>
    match child_output can_open cmd t1 with
    | .error msg => .error msg
    | .ok t2 => child_pipes fd2 pipe1 not_last piped t2

/-- The descriptor side of the command loop for a pipeline whose stages are all forked:
for each stage from `k` on, the table its child has just before `execvp`.  The shell
calls `pipe (pipe1)` (the call is taken to succeed; its result is not tested), forks,
closes `pipe1[1]` and keeps `pipe1[0]` in `fd2`. -/
def stage_fds (can_open : String → Bool) (piped : Bool) :
    Nat → List esh_command → Nat → List (Option File) → List (Except String (List (Option File)))
  | _, [], _, _ => []
  | k, cmd :: rest, fd2, t =>
    let t1 := fd_set t (lowest_free t) (some (.pipe_read k))
    let t2 := fd_set t1 (lowest_free t1) (some (.pipe_write k))
    child_fds can_open cmd fd2 (lowest_free t, lowest_free t1) (!rest.isEmpty) piped t2
      :: stage_fds can_open piped (k + 1) rest (lowest_free t)
          (fd_set t2 (lowest_free t1) none)

/-- The tables of the children of a pipeline, stage by stage: `fd2` starts as 0 and
`piped` is `list_size (&pipeline->commands) > 1` (lines 452-462). -/
def pipeline_fds (can_open : String → Bool) (pipeline : esh_pipeline)
    (t : List (Option File)) : List (Except String (List (Option File))) :=
  stage_fds can_open (decide (1 < pipeline.commands.length)) 0 pipeline.commands 0 t

/-- The descriptors of a shell started with standard input, output and error open. -/
def shell_fds : List (Option File) :=
  [some (.inherited 0), some (.inherited 1), some (.inherited 2)]

/-- Standard input and standard output in a child's table, when the child got as far as
`execvp`. -/
def stdio (r : Except String (List (Option File))) : Option (Option File × Option File) :=
  match r with
  | .ok t => some (fd_get t 0, fd_get t 1)
  | .error _ => none

/-- The standard input of the child of stage `k`: the previous stage's read end when
`k > 0`; for the first stage the redirected file, or the shell's own standard input. -/
def stage_stdin (k : Nat) (cmd : esh_command) : File :=
  if k = 0 then
    match cmd.iored_input with
    | some name => .path name .rdonly
    | none => .inherited 0
  else .pipe_read (k - 1)

/-- The standard output of the child of stage `k`: the write end of the stage's pipe
when the stage is not the last one; for the last stage the redirected file (truncated or
appended to), or the shell's own standard output. -/
def stage_stdout (k : Nat) (last : Bool) (cmd : esh_command) : File :=
  if last then
    match cmd.iored_output with
    | some name => .path name (if cmd.append_to_output then .append else .trunc)
    | none => .inherited 1
  else .pipe_write k

/-! ## Lemmas on the reaper loops -/

/-- The exited loops of the handler and of `possible_job_update` are the same function. -/
theorem esh_sighandler_exited_eq (pid : Int) (jobs : List esh_pipeline) :
    esh_sighandler_exited pid jobs = possible_job_update_exited pid jobs := by
  induction jobs with
  | nil => rfl
  | cons pipe rest ih => simp [esh_sighandler_exited, possible_job_update_exited, ih]

/-- The stopped loop of the handler leaves the table that the one of `possible_job_update`
leaves. -/
theorem esh_sighandler_stopped_eq (pid : Int) (jobs : List esh_pipeline) :
    esh_sighandler_stopped pid jobs = (possible_job_update_stopped pid jobs).1 := by
  induction jobs with
  | nil => rfl
  | cons pipe rest ih =>
    by_cases h : pipe.pgrp = pid <;>
      simp [esh_sighandler_stopped, possible_job_update_stopped, ih, h]

/-- Without a job of group `pid` the exited loop changes and prints nothing. -/
theorem exited_no_match (pid : Int) (jobs : List esh_pipeline)
    (h : ∀ j ∈ jobs, j.pgrp ≠ pid) : possible_job_update_exited pid jobs = (jobs, []) := by
  induction jobs with
  | nil => rfl
  | cons pipe rest ih =>
    have h1 : pipe.pgrp ≠ pid := h pipe (List.mem_cons_self _ _)
    have h2 := ih (fun j hj => h j (List.mem_cons_of_mem _ hj))
    simp [possible_job_update_exited, h1, h2]

/-- With exactly one job of group `pid` the exited loop removes it. -/
theorem exited_one_match (pid : Int) (before after : List esh_pipeline) (job : esh_pipeline)
    (hb : ∀ j ∈ before, j.pgrp ≠ pid) (hj : job.pgrp = pid) (ha : ∀ j ∈ after, j.pgrp ≠ pid) :
    possible_job_update_exited pid (before ++ job :: after)
      = (before ++ after, if job.status ≠ job_status.FOREGROUND then [done_line job] else []) := by
  induction before with
  | nil =>
    by_cases hs : job.status = job_status.FOREGROUND
    · simp [possible_job_update_exited, hj, hs, exited_no_match pid after ha]
    · simp [possible_job_update_exited, hj, hs]
  | cons pipe rest ih =>
    have h1 : pipe.pgrp ≠ pid := hb pipe (List.mem_cons_self _ _)
    have h2 := ih (fun j hj => hb j (List.mem_cons_of_mem _ hj))
    simp [possible_job_update_exited, h1, h2]

/-- Without a job of group `pid` the stopped loop changes and prints nothing. -/
theorem stopped_no_match (pid : Int) (jobs : List esh_pipeline)
    (h : ∀ j ∈ jobs, j.pgrp ≠ pid) : possible_job_update_stopped pid jobs = (jobs, []) := by
  induction jobs with
  | nil => rfl
  | cons pipe rest ih =>
    have h1 : pipe.pgrp ≠ pid := h pipe (List.mem_cons_self _ _)
    have h2 := ih (fun j hj => h j (List.mem_cons_of_mem _ hj))
    simp [possible_job_update_stopped, h1, h2]

/-- The stopped loop marks the first job of group `pid`. -/
theorem stopped_first_match (pid : Int) (before after : List esh_pipeline) (job : esh_pipeline)
    (hb : ∀ j ∈ before, j.pgrp ≠ pid) (hj : job.pgrp = pid) :
    possible_job_update_stopped pid (before ++ job :: after)
      = (before ++ { job with status := job_status.STOPPED } :: after, [stopped_line job]) := by
  induction before with
  | nil => simp [possible_job_update_stopped, hj]
  | cons pipe rest ih =>
    have h1 : pipe.pgrp ≠ pid := hb pipe (List.mem_cons_self _ _)
    have h2 := ih (fun j hj => hb j (List.mem_cons_of_mem _ hj))
    simp [possible_job_update_stopped, h1, h2]

/-- A stopped status is not an exited one. -/
theorem stopped_not_exited (status : Int) (h : WIFSTOPPED status = true) :
    WIFEXITED status = false := by
  simp only [WIFSTOPPED, WIFEXITED, beq_iff_eq, beq_eq_false_iff_ne] at *
  omega

/-- In a table with distinct groups, the job of group `pid` is the only one. -/
theorem nodup_pgrp_split (pid : Int) (before after : List esh_pipeline) (job : esh_pipeline)
    (hd : ((before ++ job :: after).map esh_pipeline.pgrp).Nodup) (hj : job.pgrp = pid) :
    (∀ j ∈ before, j.pgrp ≠ pid) ∧ (∀ j ∈ after, j.pgrp ≠ pid) := by
  rw [List.map_append, List.map_cons, List.nodup_append] at hd
  obtain ⟨_, h2, h3⟩ := hd
  rw [List.nodup_cons] at h2
  constructor
  · intro j hjb heq
    exact h3 (List.mem_map_of_mem _ hjb) (by rw [heq, hj]; exact List.mem_cons_self _ _)
  · intro j hja heq
    exact h2.1 (by rw [hj, ← heq]; exact List.mem_map_of_mem _ hja)

/-- The search by jid finds the first job with that jid. -/
theorem find_job_first (jobID : Int) (before after : List esh_pipeline) (job : esh_pipeline)
    (hb : ∀ j ∈ before, j.jid ≠ jobID) (hj : job.jid = jobID) :
    find_job jobID (before ++ job :: after) = some (before, job, after) := by
  induction before with
  | nil => simp [find_job, hj]
  | cons pipe rest ih =>
    have h1 : pipe.jid ≠ jobID := hb pipe (List.mem_cons_self _ _)
    have h2 := ih (fun j hj => hb j (List.mem_cons_of_mem _ hj))
    simp [find_job, h1, h2]

/-- Whatever distinct integers the enumerators are, `FOREGROUND || BACKGROUND` is 1, so a
table holding one FOREGROUND job or a table holding one BACKGROUND job is printed as
nothing. -/
theorem showJobs_any_numbering (V : job_status_values) (hV : V.distinct)
    (commands : List esh_command) (jid pgrp : Int) (bg_job : Bool) :
    showJobs V [⟨commands, jid, pgrp, job_status.FOREGROUND, bg_job⟩] = []
      ∨ showJobs V [⟨commands, jid, pgrp, job_status.BACKGROUND, bg_job⟩] = [] := by
  obtain ⟨h1, h2, h3⟩ := hV
  have hl : c_lor V.FOREGROUND V.BACKGROUND = 1 := by
    unfold c_lor
    by_cases h0 : V.FOREGROUND = 0
    · have : V.BACKGROUND ≠ 0 := fun hb => h1 (by rw [h0, hb])
      simp [this]
    · simp [h0]
  by_cases hf : V.FOREGROUND = 1
  · right
    have hb : V.BACKGROUND ≠ 1 := fun hb => h1 (by rw [hf, hb])
    simp [showJobs, job_status_values.val, hl, hb, h3]
  · left
    simp [showJobs, job_status_values.val, hl, hf, h2]

/-- Claim C1, at a job table holding one FOREGROUND job `sleep 30`: `showJobs` prints
nothing, where the specification gives the line `[1] Running   (sleep 30)`.  The table
is the one a fresh shell holds after `sleep 30` was killed by SIGINT (wait status 2) in
the foreground; `jobs` typed next prints nothing. -/
theorem showJobs_foreground_job_unlisted :
    showJobs c_enum [sleep_job 1 100 "30" job_status.FOREGROUND false] = []
      ∧ showJobs_spec [sleep_job 1 100 "30" job_status.FOREGROUND false]
          = ["[1] Running   (sleep 30)\n"]
      ∧ (shell_after (world fun n => (100 + n, 2))
            [.line (some [parsed 0 ["sleep", "30"] false]),
             .line (some [parsed 0 ["jobs"] false])] Shell.init).map
          (fun c => (c.state.jobs_list, printed c.state.log))
          = some ([sleep_job 1 100 "30" job_status.FOREGROUND false], []) := by
  refine ⟨by decide, by decide, ?_⟩
  simp [shell_after, parsed, sleep_job, run_line, line_fuel, pipes_loop, run_pipeline,
    run_commands, run_command, run_plugins, run_builtin, run_showJobs, showJobs, world,
    esh_isBuiltIn, argv_at, bind, M.bind, pure, esh_signal_block_SIGCHLD, sys_fork, next_rc,
    emit, cleanup_pipes, close_pipes, with_status, get_jobs, set_jobs, after_push,
    wait_foreground, give_terminal_to, sys_waitpid, report_wait_error,
    run_possible_job_update, possible_job_update, WIFEXITED, WIFSTOPPED, print_lines,
    esh_signal_unblock_SIGCHLD, first_numJobs, c_int, Shell.init, Ctl.state, printed,
    job_status_values.val, c_enum, c_lor]

/-- Claim C2: in a table with pairwise distinct pgrp values, reconciling an exited status
for `pid`, from `possible_job_update` and from the handler alike, removes the job with
`pgrp == pid` whatever its status, keeps all other jobs in order, and prints the DONE
line exactly when that job was not FOREGROUND; without such a job nothing changes and
nothing is printed. -/
theorem exited_reconciliation (jobs : List esh_pipeline) (pid status : Int)
    (hst : WIFEXITED status = true) (hd : (jobs.map esh_pipeline.pgrp).Nodup) :
    (∀ before job after, jobs = before ++ job :: after → job.pgrp = pid →
        possible_job_update status pid jobs
            = (before ++ after,
                if job.status ≠ job_status.FOREGROUND then ["\n[" ++ fmt_d job.jid ++ "] DONE\n"]
                else [])
          ∧ esh_sighandler_event status pid jobs = possible_job_update status pid jobs)
      ∧ ((∀ j ∈ jobs, j.pgrp ≠ pid) →
          possible_job_update status pid jobs = (jobs, [])
            ∧ esh_sighandler_event status pid jobs = (jobs, [])) := by
  have hev : esh_sighandler_event status pid jobs = possible_job_update status pid jobs := by
    simp [esh_sighandler_event, possible_job_update, hst, esh_sighandler_exited_eq]
  refine ⟨?_, ?_⟩
  · intro before job after hjobs hj
    subst hjobs
    obtain ⟨hb, ha⟩ := nodup_pgrp_split pid before after job hd hj
    refine ⟨?_, hev⟩
    simp only [possible_job_update, hst, if_true]
    rw [exited_one_match pid before after job hb hj ha]
    rfl
  · intro hno
    rw [hev]
    simp [possible_job_update, hst, exited_no_match pid jobs hno]

/-- Claim C2 at a table of two jobs: the exit of group 100 removes the background job 1 and
prints its DONE line. -/
theorem exited_reconciliation_witness :
    possible_job_update 0 100
        [sleep_job 1 100 "10" job_status.BACKGROUND true,
         sleep_job 2 101 "20" job_status.STOPPED false]
      = ([sleep_job 2 101 "20" job_status.STOPPED false], ["\n[1] DONE\n"]) := by
  have h := (exited_reconciliation
    [sleep_job 1 100 "10" job_status.BACKGROUND true,
     sleep_job 2 101 "20" job_status.STOPPED false] 100 0 (by decide) (by decide)).1
      [] (sleep_job 1 100 "10" job_status.BACKGROUND true)
      [sleep_job 2 101 "20" job_status.STOPPED false] rfl rfl
  exact h.1

/-- Claim C3: reconciling a stopped status for `pid` sets the status of the first job with
`pgrp == pid` to STOPPED and leaves every other job and position as it was;
`possible_job_update` prints the Stopped line of that job, the handler prints nothing,
and both leave the same table; without such a job nothing changes. -/
theorem stopped_reconciliation (jobs : List esh_pipeline) (pid status : Int)
    (hst : WIFSTOPPED status = true) :
    (∀ before job after, jobs = before ++ job :: after → (∀ j ∈ before, j.pgrp ≠ pid) →
        job.pgrp = pid →
        possible_job_update status pid jobs
            = (before ++ { job with status := job_status.STOPPED } :: after,
                ["[" ++ fmt_d job.jid ++ "] Stopped   (" ++ fmt_s (argv_at (first_command job) 0)
                  ++ " " ++ fmt_s (argv_at (first_command job) 1) ++ ")\n"])
          ∧ esh_sighandler_event status pid jobs
            = (before ++ { job with status := job_status.STOPPED } :: after, []))
      ∧ ((∀ j ∈ jobs, j.pgrp ≠ pid) →
          possible_job_update status pid jobs = (jobs, [])
            ∧ esh_sighandler_event status pid jobs = (jobs, []))
      ∧ (esh_sighandler_event status pid jobs).1 = (possible_job_update status pid jobs).1 := by
  have hex := stopped_not_exited status hst
  have hp : possible_job_update status pid jobs = possible_job_update_stopped pid jobs := by
    simp [possible_job_update, hst, hex]
  have he : esh_sighandler_event status pid jobs
      = ((possible_job_update_stopped pid jobs).1, []) := by
    simp [esh_sighandler_event, hst, hex, esh_sighandler_stopped_eq]
  refine ⟨?_, ?_, ?_⟩
  · intro before job after hjobs hb hj
    subst hjobs
    rw [hp, he, stopped_first_match pid before after job hb hj]
    exact ⟨rfl, rfl⟩
  · intro hno
    rw [hp, he, stopped_no_match pid jobs hno]
    exact ⟨rfl, rfl⟩
  · rw [hp, he]

/-- Claim C3 at a table of two jobs, for the stop of group 101 by SIGTSTP. -/
theorem stopped_reconciliation_witness :
    possible_job_update 5247 101
        [sleep_job 1 100 "10" job_status.BACKGROUND true,
         sleep_job 2 101 "20" job_status.FOREGROUND false]
      = ([sleep_job 1 100 "10" job_status.BACKGROUND true,
          sleep_job 2 101 "20" job_status.STOPPED false], ["[2] Stopped   (sleep 20)\n"])
    ∧ esh_sighandler_event 5247 101
        [sleep_job 1 100 "10" job_status.BACKGROUND true,
         sleep_job 2 101 "20" job_status.FOREGROUND false]
      = ([sleep_job 1 100 "10" job_status.BACKGROUND true,
          sleep_job 2 101 "20" job_status.STOPPED false], []) :=
  (stopped_reconciliation
    [sleep_job 1 100 "10" job_status.BACKGROUND true,
     sleep_job 2 101 "20" job_status.FOREGROUND false] 101 5247 (by decide)).1
      [sleep_job 1 100 "10" job_status.BACKGROUND true]
      (sleep_job 2 101 "20" job_status.FOREGROUND false) [] rfl (by decide) rfl

/-- In a table with distinct jids no job before the one with `jobID` has that jid. -/
theorem nodup_jid_before (jobID : Int) (before after : List esh_pipeline) (job : esh_pipeline)
    (hd : ((before ++ job :: after).map esh_pipeline.jid).Nodup) (hj : job.jid = jobID) :
    ∀ j ∈ before, j.jid ≠ jobID := by
  rw [List.map_append, List.map_cons, List.nodup_append] at hd
  obtain ⟨_, _, h3⟩ := hd
  intro j hjb heq
  exact h3 (List.mem_map_of_mem _ hjb) (by rw [heq, hj]; exact List.mem_cons_self _ _)

/-- Without a job of group `pid`, reconciliation of any status changes and prints nothing. -/
theorem no_match_unchanged (status pid : Int) (jobs : List esh_pipeline)
    (h : ∀ j ∈ jobs, j.pgrp ≠ pid) :
    possible_job_update status pid jobs = (jobs, [])
      ∧ esh_sighandler_event status pid jobs = (jobs, []) := by
  unfold possible_job_update esh_sighandler_event
  rw [esh_sighandler_exited_eq, esh_sighandler_stopped_eq, exited_no_match pid jobs h,
    stopped_no_match pid jobs h]
  constructor <;> split <;> (try split) <;> rfl

/-- Claim C4: in a table with pairwise distinct jids and pgrps, when `kill` succeeds,
`killJob` sends SIGTERM to `-pgrp` of the job with that jid and removes exactly that
job; reconciling any later status for that pgrp changes and prints nothing; and when
that job was the only one, the table is left empty and `jobs` prints nothing. -/
theorem killJob_removes_job (w : World) (st : Shell) (jobID : Int)
    (before after : List esh_pipeline) (job : esh_pipeline)
    (hjobs : st.jobs_list = before ++ job :: after)
    (hjid : (st.jobs_list.map esh_pipeline.jid).Nodup)
    (hpgrp : (st.jobs_list.map esh_pipeline.pgrp).Nodup)
    (hj : job.jid = jobID) (hrc : 0 ≤ w.rc st.nrc) :
    killJob w jobID st
        = .running () { st with jobs_list := before ++ after,
                                log := st.log ++ [Event.kill (-job.pgrp) Signal.SIGTERM],
                                nrc := st.nrc + 1 }
      ∧ (∀ status : Int,
          possible_job_update status job.pgrp (before ++ after) = (before ++ after, [])
            ∧ esh_sighandler_event status job.pgrp (before ++ after) = (before ++ after, []))
      ∧ (before = [] → after = [] →
          ∃ st1, killJob w jobID st = .running () st1 ∧ st1.jobs_list = []
            ∧ run_showJobs w st1 = .running () st1) := by
  rw [hjobs] at hjid hpgrp
  have hb := nodup_jid_before jobID before after job hjid hj
  obtain ⟨hpb, hpa⟩ := nodup_pgrp_split job.pgrp before after job hpgrp rfl
  have hkill : killJob w jobID st
      = .running () { st with jobs_list := before ++ after,
                              log := st.log ++ [Event.kill (-job.pgrp) Signal.SIGTERM],
                              nrc := st.nrc + 1 } := by
    have hrc2 : ¬ w.rc st.nrc < 0 := not_lt.mpr hrc
    simp [killJob, bind, M.bind, get_jobs, hjobs, find_job_first jobID before after job hb hj,
      sys_kill, emit, next_rc, set_jobs, hrc2]
  refine ⟨hkill, ?_, ?_⟩
  · intro status
    apply no_match_unchanged
    intro j hjm
    rcases List.mem_append.mp hjm with h | h
    · exact hpb j h
    · exact hpa j h
  · intro hbe hae
    subst hbe hae
    refine ⟨_, hkill, rfl, ?_⟩
    simp [run_showJobs, bind, M.bind, get_jobs, print_lines, showJobs]

/-- Claim C4 at the table holding only job 1 (`sleep 60 &`, group 100): `kill 1` signals
group 100 and leaves the table empty. -/
theorem killJob_removes_job_witness :
    killJob (world fun n => (100 + n, 0)) 1
        ⟨[sleep_job 1 100 "60" job_status.BACKGROUND true], [], false, true, 1, 0, 3⟩
      = .running () ⟨[], [Event.kill (-100) Signal.SIGTERM], false, true, 1, 0, 4⟩ :=
  (killJob_removes_job (world fun n => (100 + n, 0))
    ⟨[sleep_job 1 100 "60" job_status.BACKGROUND true], [], false, true, 1, 0, 3⟩ 1 [] []
    (sleep_job 1 100 "60" job_status.BACKGROUND true) rfl (by decide) (by decide) rfl
    (by decide)).1

/-- When at most one job has group `pid`, none is left after the exited loop. -/
theorem exited_table_no_match (pid : Int) (jobs : List esh_pipeline)
    (h : (jobs.filter (fun j => j.pgrp = pid)).length ≤ 1) :
    ∀ j ∈ (possible_job_update_exited pid jobs).1, j.pgrp ≠ pid := by
  induction jobs with
  | nil => intro j hj; simp [possible_job_update_exited] at hj
  | cons pipe rest ih =>
    by_cases hp : pipe.pgrp = pid
    · have hrest : ∀ j ∈ rest, j.pgrp ≠ pid := by
        intro j hj heq
        have hmem : j ∈ rest.filter (fun j => j.pgrp = pid) := by
          simp [List.mem_filter, hj, heq]
        have hpos := List.length_pos_of_mem hmem
        have h2 : (rest.filter (fun j => j.pgrp = pid)).length + 1 ≤ 1 := by
          have h3 : (pipe :: rest).filter (fun j => decide (j.pgrp = pid))
              = pipe :: rest.filter (fun j => decide (j.pgrp = pid)) := by
            simp [List.filter, hp]
          rw [h3] at h
          exact h
        omega
      by_cases hs : pipe.status = job_status.FOREGROUND
      · simp only [possible_job_update_exited, hp, hs, if_true, ne_eq, not_true_eq_false, if_false]
        rw [exited_no_match pid rest hrest]
        exact hrest
      · simp only [possible_job_update_exited, hp, if_true, ne_eq, hs, not_false_eq_true]
        exact hrest
    · have h2 : (rest.filter (fun j => j.pgrp = pid)).length ≤ 1 := by
        have h3 : (pipe :: rest).filter (fun j => decide (j.pgrp = pid))
            = rest.filter (fun j => decide (j.pgrp = pid)) := by
          simp [List.filter, hp]
        rw [h3] at h
        exact h
      intro j hj
      simp only [possible_job_update_exited, hp, if_false, List.mem_cons] at hj
      rcases hj with rfl | hj
      · exact hp
      · exact ih h2 j hj

/-- The stopped loop run twice leaves the table it leaves when run once. -/
theorem stopped_twice (pid : Int) (jobs : List esh_pipeline) :
    (possible_job_update_stopped pid (possible_job_update_stopped pid jobs).1).1
      = (possible_job_update_stopped pid jobs).1 := by
  induction jobs with
  | nil => rfl
  | cons pipe rest ih =>
    by_cases hp : pipe.pgrp = pid <;> simp [possible_job_update_stopped, hp, ih]

/-- Claim C8 fails at a table of two background jobs with the same pgrp 100: the first
exited event of 100 removes job 1, the second removes job 2. -/
theorem reconcile_twice_differs :
    (possible_job_update 0 100 (possible_job_update 0 100
        [sleep_job 1 100 "10" job_status.BACKGROUND true,
         sleep_job 2 100 "20" job_status.BACKGROUND true]).1).1
      ≠ (possible_job_update 0 100
        [sleep_job 1 100 "10" job_status.BACKGROUND true,
         sleep_job 2 100 "20" job_status.BACKGROUND true]).1
    ∧ (esh_sighandler_event 0 100 (esh_sighandler_event 0 100
        [sleep_job 1 100 "10" job_status.BACKGROUND true,
         sleep_job 2 100 "20" job_status.BACKGROUND true]).1).1
      ≠ (esh_sighandler_event 0 100
        [sleep_job 1 100 "10" job_status.BACKGROUND true,
         sleep_job 2 100 "20" job_status.BACKGROUND true]).1 := by
  decide

/-- Claim C8 as amended: when at most one job of the table has `pgrp == pid`, reconciling
the same `(pid, status)` twice leaves the table that reconciling it once leaves, for
every status and for both entries. -/
theorem reconcile_idempotent (jobs : List esh_pipeline) (pid status : Int)
    (h : (jobs.filter (fun j => j.pgrp = pid)).length ≤ 1) :
    (possible_job_update status pid (possible_job_update status pid jobs).1).1
        = (possible_job_update status pid jobs).1
      ∧ (esh_sighandler_event status pid (esh_sighandler_event status pid jobs).1).1
        = (esh_sighandler_event status pid jobs).1 := by
  have hno := exited_table_no_match pid jobs h
  have hex := exited_no_match pid _ hno
  unfold possible_job_update esh_sighandler_event
  simp only [esh_sighandler_exited_eq, esh_sighandler_stopped_eq]
  by_cases h1 : WIFEXITED status = true
  · simp [h1, hex]
  · by_cases h2 : WIFSTOPPED status = true
    · simp [h1, h2, stopped_twice]
    · simp [h1, h2]

/-- Claim C8 as amended, at a table of two jobs with groups 100 and 101. -/
theorem reconcile_idempotent_witness :
    (possible_job_update 0 100 (possible_job_update 0 100
        [sleep_job 1 100 "10" job_status.BACKGROUND true,
         sleep_job 2 101 "20" job_status.BACKGROUND true]).1).1
      = (possible_job_update 0 100
        [sleep_job 1 100 "10" job_status.BACKGROUND true,
         sleep_job 2 101 "20" job_status.BACKGROUND true]).1 :=
  (reconcile_idempotent
    [sleep_job 1 100 "10" job_status.BACKGROUND true,
     sleep_job 2 101 "20" job_status.BACKGROUND true] 100 0 (by decide)).1

/-- A sequence that goes on has gone on after its first part. -/
theorem bind_running {α β : Type} {m : M α} {f : α → M β} {st st1 : Shell} {r : β}
    (h : (m >>= f) st = .running r st1) :
    ∃ a st2, m st = .running a st2 ∧ f a st2 = .running r st1 := by
  simp only [bind, M.bind] at h
  cases hm : m st with
  | running a st2 => rw [hm] at h; exact ⟨a, st2, rfl, h⟩
  | exited code st2 => rw [hm] at h; cases h

/-- The result of `pure`. -/
theorem pure_running {α : Type} {a r : α} {st st1 : Shell}
    (h : (pure a : M α) st = .running r st1) : r = a ∧ st1 = st := by
  simp only [pure] at h
  cases h
  exact ⟨rfl, rfl⟩

/-- After an iteration that does not break, either `e` moved one step in an unchanged list,
or the list lost its head and `e` is at position 1. -/
theorem run_pipeline_next (w : World) (pipes : List esh_pipeline) (i : Nat) (p : esh_pipeline)
    (st st1 : Shell) (r : IterationEnd) (i1 : Nat)
    (h : run_pipeline w pipes i p st = .running r st1) (hn : r.next = some i1) :
    (r.pipes.length = pipes.length ∧ i1 = i + 1)
      ∨ (r.pipes.length + 1 = pipes.length ∧ i1 = 1) := by
  unfold run_pipeline at h
  obtain ⟨loc, st2, -, h⟩ := bind_running h
  obtain ⟨_, st3, -, h⟩ := bind_running h
  by_cases hc : (!loc.ranBuiltIn && !loc.ranPlugin) = true
  · rw [if_pos hc] at h
    cases hset : pipes.set i (with_status loc.pipeline) with
    | nil =>
      rw [hset] at h
      obtain ⟨rfl, -⟩ := pure_running h
      cases hn
    | cons front rest =>
      rw [hset] at h
      obtain ⟨_, st4, -, h⟩ := bind_running h
      obtain ⟨_, st5, -, h⟩ := bind_running h
      obtain ⟨_, st6, -, h⟩ := bind_running h
      have hlen : rest.length + 1 = pipes.length := by
        have := congrArg List.length hset
        simpa using this.symm
      by_cases he : rest.isEmpty = true
      · rw [if_pos he] at h
        obtain ⟨rfl, -⟩ := pure_running h
        cases hn
      · rw [if_neg he] at h
        obtain ⟨rfl, -⟩ := pure_running h
        cases hn
        exact Or.inr ⟨hlen, rfl⟩
  · rw [if_neg hc] at h
    obtain ⟨rfl, -⟩ := pure_running h
    cases hn
    exact Or.inl ⟨by simp, rfl⟩

/-- The pipeline loop ends within `n * n + (n - i)` iterations. -/
theorem pipes_loop_total (w : World) :
    ∀ (fuel : Nat) (pipes : List esh_pipeline) (i : Nat) (numJobs : Int) (st : Shell),
      pipes.length * pipes.length + (pipes.length - i) < fuel →
      ∃ its c, pipes_loop w fuel pipes i numJobs st = some (its, c) := by
  intro fuel
  induction fuel with
  | zero => intro pipes i numJobs st h; omega
  | succ fuel ih =>
    intro pipes i numJobs st h
    unfold pipes_loop
    cases hget : pipes.get? i with
    | none => exact ⟨_, _, rfl⟩
    | some p =>
      have hi : i < pipes.length := by
        rcases Nat.lt_or_ge i pipes.length with h1 | h1
        · exact h1
        · rw [List.get?_eq_none.mpr h1] at hget; cases hget
      simp only
      cases hrun : run_pipeline w pipes i { p with jid := numJobs, pgrp := -1 } st with
      | exited code st1 => exact ⟨_, _, rfl⟩
      | running r st1 =>
        simp only
        cases hnext : r.next with
        | none => exact ⟨_, _, rfl⟩
        | some i1 =>
          simp only
          have hshape := run_pipeline_next w pipes i _ st st1 r i1 hrun hnext
          have hfuel : r.pipes.length * r.pipes.length + (r.pipes.length - i1) < fuel := by
            rcases hshape with ⟨h1, h2⟩ | ⟨h1, h2⟩
            · rw [h1, h2]; omega
            · rw [← h1] at h
              subst h2
              have : (r.pipes.length + 1) * (r.pipes.length + 1)
                  = r.pipes.length * r.pipes.length + 2 * r.pipes.length + 1 := by ring
              rw [this] at h
              omega
          obtain ⟨its, c, hrec⟩ := ih r.pipes i1 (c_int (numJobs + 1)) st1 hfuel
          rw [hrec]
          exact ⟨_, _, rfl⟩

/-- Converting an `int` value again changes nothing. -/
theorem c_int_idem (a : Int) : c_int (c_int a) = c_int a := by
  unfold c_int
  omega

/-- Counting on from an incremented `int` is counting one further. -/
theorem c_int_succ (a : Int) (k : Nat) :
    c_int (c_int (a + 1) + (k : Int)) = c_int (a + ((k + 1 : Nat) : Int)) := by
  unfold c_int
  push_cast
  omega

/-- A value within the range of `int` is kept. -/
theorem c_int_of_range (a : Int) (h1 : -2147483648 ≤ a) (h2 : a ≤ 2147483647) :
    c_int a = a := by
  unfold c_int
  omega

/-- The iterations of the pipeline loop are given consecutive `int` jids, starting from
`numJobs`. -/
theorem pipes_loop_jids (w : World) :
    ∀ (fuel : Nat) (pipes : List esh_pipeline) (i : Nat) (numJobs : Int) (st : Shell)
      (its : List Iteration) (c : Ctl Unit),
      c_int numJobs = numJobs →
      pipes_loop w fuel pipes i numJobs st = some (its, c) →
      its.map (fun it => it.pipeline.jid)
        = (List.range its.length).map (fun (k : Nat) => c_int (numJobs + (k : Int))) := by
  intro fuel
  induction fuel with
  | zero => intro pipes i numJobs st its c _ h; simp [pipes_loop] at h
  | succ fuel ih =>
    intro pipes i numJobs st its c hn h
    unfold pipes_loop at h
    cases hget : pipes.get? i with
    | none =>
      rw [hget] at h
      simp only [Option.some.injEq, Prod.mk.injEq] at h
      obtain ⟨rfl, -⟩ := h
      rfl
    | some p =>
      rw [hget] at h
      simp only at h
      cases hrun : run_pipeline w pipes i { p with jid := numJobs, pgrp := -1 } st with
      | exited code st1 =>
        rw [hrun] at h
        simp only [Option.some.injEq, Prod.mk.injEq] at h
        obtain ⟨rfl, -⟩ := h
        simp [List.range_succ, hn]
      | running r st1 =>
        rw [hrun] at h
        simp only at h
        cases hnext : r.next with
        | none =>
          rw [hnext] at h
          simp only [Option.some.injEq, Prod.mk.injEq] at h
          obtain ⟨rfl, -⟩ := h
          simp [List.range_succ, hn]
        | some i1 =>
          rw [hnext] at h
          simp only at h
          cases hrec : pipes_loop w fuel r.pipes i1 (c_int (numJobs + 1)) st1 with
          | none => rw [hrec] at h; cases h
          | some res =>
            obtain ⟨its1, c1⟩ := res
            rw [hrec] at h
            simp only [Option.some.injEq, Prod.mk.injEq] at h
            obtain ⟨rfl, -⟩ := h
            have := ih r.pipes i1 (c_int (numJobs + 1)) st1 its1 c1 (c_int_idem _) hrec
            simp only [List.map_cons, List.length_cons, List.range_succ_eq_map, this,
              List.map_map]
            simp only [Nat.cast_zero, add_zero, hn, List.cons.injEq, true_and]
            apply List.map_congr_left
            intro k _
            simp only [Function.comp]
            exact c_int_succ numJobs k

/-- The first iteration of the pipeline loop finds the job table the loop starts with. -/
theorem pipes_loop_first (w : World) (fuel : Nat) (pipes : List esh_pipeline) (i : Nat)
    (numJobs : Int) (st : Shell) (its : List Iteration) (c : Ctl Unit)
    (h : pipes_loop w fuel pipes i numJobs st = some (its, c)) (it : Iteration)
    (hit : its.head? = some it) : it.jobs_before = st.jobs_list := by
  cases fuel with
  | zero => simp [pipes_loop] at h
  | succ fuel =>
    unfold pipes_loop at h
    cases hget : pipes.get? i with
    | none =>
      rw [hget] at h
      simp only [Option.some.injEq, Prod.mk.injEq] at h
      obtain ⟨rfl, -⟩ := h
      cases hit
    | some p =>
      rw [hget] at h
      simp only at h
      cases hrun : run_pipeline w pipes i { p with jid := numJobs, pgrp := -1 } st with
      | exited code st1 =>
        rw [hrun] at h
        simp only [Option.some.injEq, Prod.mk.injEq] at h
        obtain ⟨rfl, -⟩ := h
        simp only [List.head?_cons, Option.some.injEq] at hit
        rw [← hit]
      | running r st1 =>
        rw [hrun] at h
        simp only at h
        cases hnext : r.next with
        | none =>
          rw [hnext] at h
          simp only [Option.some.injEq, Prod.mk.injEq] at h
          obtain ⟨rfl, -⟩ := h
          simp only [List.head?_cons, Option.some.injEq] at hit
          rw [← hit]
        | some i1 =>
          rw [hnext] at h
          simp only at h
          cases hrec : pipes_loop w fuel r.pipes i1 (c_int (numJobs + 1)) st1 with
          | none => rw [hrec] at h; cases h
          | some res =>
            obtain ⟨its1, c1⟩ := res
            rw [hrec] at h
            simp only [Option.some.injEq, Prod.mk.injEq] at h
            obtain ⟨rfl, -⟩ := h
            simp only [List.head?_cons, Option.some.injEq] at hit
            rw [← hit]

/-- Claim C5 as amended: the pipeline loop of every command line ends; its first
iteration finds the job table the line starts with; the jid counter is computed once,
from that table, as 1 when it is empty and as `last.jid + 1` otherwise, and iteration
`k` of the line is given that value plus `k` (in `int` arithmetic), whatever the table
holds by then; and when the last job holds the largest jid of the table the line starts
with, every value assigned without overflow strictly exceeds every jid of that table. -/
theorem run_line_jids (w : World) (cline : Option (List esh_pipeline)) (st : Shell) :
    ∃ its c, run_line w cline st = some (its, c)
      ∧ (∀ it, its.head? = some it → it.jobs_before = st.jobs_list)
      ∧ (st.jobs_list = [] →
          its.map (fun it => it.pipeline.jid)
            = (List.range its.length).map (fun (k : Nat) => c_int (1 + (k : Int))))
      ∧ (∀ front last, st.jobs_list = front ++ [last] →
          its.map (fun it => it.pipeline.jid)
              = (List.range its.length).map (fun (k : Nat) => c_int (last.jid + 1 + (k : Int)))
            ∧ ((∀ j ∈ st.jobs_list, j.jid ≤ last.jid) → -2147483648 ≤ last.jid →
                ∀ (k : Nat) (it : Iteration), its.get? k = some it →
                  last.jid + 1 + (k : Int) ≤ 2147483647 →
                  ∀ j ∈ st.jobs_list, j.jid < it.pipeline.jid)) := by
  have hmain : ∃ its c, run_line w cline st = some (its, c)
      ∧ (∀ it, its.head? = some it → it.jobs_before = st.jobs_list)
      ∧ its.map (fun it => it.pipeline.jid)
        = (List.range its.length).map
            (fun (k : Nat) => c_int (first_numJobs st.jobs_list + (k : Int))) := by
    unfold run_line
    match cline with
    | none => exact ⟨[], _, rfl, (fun _ h => by simp at h), rfl⟩
    | some [] => exact ⟨[], _, rfl, (fun _ h => by simp at h), rfl⟩
    | some (p :: ps) =>
      simp only
      obtain ⟨its, c, h⟩ := pipes_loop_total w (line_fuel (p :: ps).length) (p :: ps) 0
        (first_numJobs st.jobs_list)
        { st with handler_installed := true, log := st.log ++ [.sethandler_SIGCHLD] }
        (by unfold line_fuel; omega)
      have hn : c_int (first_numJobs st.jobs_list) = first_numJobs st.jobs_list := by
        unfold first_numJobs
        cases st.jobs_list.getLast? with
        | none => rfl
        | some job => exact c_int_idem _
      exact ⟨its, c, h, fun it hit => pipes_loop_first w _ _ _ _ _ its c h it hit,
        pipes_loop_jids w _ _ _ _ _ its c hn h⟩
  obtain ⟨its, c, hrun, hfirst, hjids⟩ := hmain
  refine ⟨its, c, hrun, hfirst, ?_, ?_⟩
  · intro hempty
    rw [hjids, hempty]
    rfl
  · intro front last hlast
    have hstart : ∀ k : Nat, c_int (first_numJobs st.jobs_list + (k : Int))
        = c_int (last.jid + 1 + (k : Int)) := by
      intro k
      have hf : first_numJobs (front ++ [last]) = c_int (last.jid + 1) := by
        simp [first_numJobs]
      rw [hlast, hf]
      unfold c_int
      omega
    have hj2 : its.map (fun it => it.pipeline.jid)
        = (List.range its.length).map (fun (k : Nat) => c_int (last.jid + 1 + (k : Int))) := by
      rw [hjids]
      exact List.map_congr_left (fun k _ => hstart k)
    refine ⟨hj2, ?_⟩
    intro hmax hlow k it hk hbound j hj
    have hlen : k < its.length := by
      rcases Nat.lt_or_ge k its.length with h | h
      · exact h
      · rw [List.get?_eq_none.mpr h] at hk; cases hk
    have hval : it.pipeline.jid = c_int (last.jid + 1 + (k : Int)) := by
      have h1 := congrArg (fun l => l.get? k) hj2
      simp only [List.get?_map, hk, Option.map_some', List.get?_range hlen] at h1
      exact Option.some.inj h1
    rw [hval, c_int_of_range _ (by omega) hbound]
    have := hmax j hj
    omega

/-- The `int` arithmetic at its limits: after a last job with jid `INT_MAX` the counter
starts at `INT_MIN`, and `atoi` of a number beyond `int` keeps its low 32 bits. -/
theorem int_limits :
    first_numJobs [sleep_job 2147483647 100 "60" job_status.BACKGROUND true] = -2147483648
      ∧ atoi "4294967297" = 1 ∧ atoi " -3x" = -3 ∧ atoi "99999999999999999999" = -1 := by
  refine ⟨by decide, by decide, by decide, by decide⟩

/-- Claim C5 as amended, at `sleep 10 & sleep 20 & sleep 30 &` typed when the table holds
only job 1: the two iterations of the line are given the jids 2 and 3, each above the
jid 1 of the table. -/
theorem run_line_jids_witness :
    ∃ its c,
      run_line (world fun n => (100 + n, 0)) (some (three_background 0))
          ⟨[sleep_job 1 100 "60" job_status.BACKGROUND true], [], false, true, 1, 0, 3⟩
        = some (its, c)
      ∧ its.map (fun it => it.pipeline.jid) = [2, 3]
      ∧ ∀ it ∈ its, ∀ j ∈ [sleep_job 1 100 "60" job_status.BACKGROUND true],
          j.jid < it.pipeline.jid := by
  obtain ⟨its, c, hrun, -, -, hlast⟩ :=
    run_line_jids (world fun n => (100 + n, 0)) (some (three_background 0))
      ⟨[sleep_job 1 100 "60" job_status.BACKGROUND true], [], false, true, 1, 0, 3⟩
  obtain ⟨hjids, hexceed⟩ := hlast [] (sleep_job 1 100 "60" job_status.BACKGROUND true) rfl
  have hev : (run_line (world fun n => (100 + n, 0)) (some (three_background 0))
      ⟨[sleep_job 1 100 "60" job_status.BACKGROUND true], [], false, true, 1, 0, 3⟩).map
      (fun r => r.1.map (fun it => it.pipeline.jid)) = some [2, 3] := by
    simp [three_background, parsed, sleep_job, run_line, line_fuel, pipes_loop, run_pipeline,
      run_commands, run_command, run_plugins, world, esh_isBuiltIn, argv_at, bind,
      M.bind, pure, esh_signal_block_SIGCHLD, sys_fork, next_rc, emit, cleanup_pipes,
      close_pipes, with_status, get_jobs, set_jobs, after_push, notify_background, print_lines,
      esh_signal_unblock_SIGCHLD, first_numJobs, c_int]
  rw [hrun] at hev
  simp only [Option.map_some', Option.some.injEq] at hev
  have hlen : its.length = 2 := by
    have := congrArg List.length hev
    simpa using this
  refine ⟨its, c, hrun, hev, ?_⟩
  intro it hit j hj
  obtain ⟨k, hk⟩ := List.mem_iff_get?.mp hit
  have hklt : k < its.length := by
    rcases Nat.lt_or_ge k its.length with h | h
    · exact h
    · rw [List.get?_eq_none.mpr h] at hk; cases hk
  refine hexceed (by decide) (by decide) k it hk ?_ j hj
  have : (sleep_job 1 100 "60" job_status.BACKGROUND true).jid = 1 := rfl
  rw [this]
  omega

/-! ## The read-eval loop at concrete command lines -/

/-- Scenario S6 of the specification, `sleep 60 &` then `kill 1` then `jobs` in a fresh
shell: the only line printed is the background notice, group 100 is sent SIGTERM, and
the job table ends empty. -/
theorem scenario_kill :
    (shell_after (world fun n => (100 + n, 0))
        [.line (some [parsed 0 ["sleep", "60"] true]), .line (some [parsed 0 ["kill", "1"] false]),
         .line (some [parsed 0 ["jobs"] false])] Shell.init).map
      (fun c => (c.state.jobs_list, printed c.state.log,
        decide (Event.kill (-100) Signal.SIGTERM ∈ c.state.log)))
      = some ([], ["[1] 100\n"], true) := by
  have h1 : atoi "1" = 1 := by decide
  have h2 : "[" ++ fmt_d 1 ++ "] " ++ fmt_d 100 ++ "\n" = "[1] 100\n" := by decide
  simp [shell_after, parsed, run_line, line_fuel, pipes_loop, run_pipeline, run_commands,
    run_command, run_plugins, run_builtin, run_showJobs, showJobs, killJob, find_job, sys_kill,
    h1, world, esh_isBuiltIn, argv_at, bind, M.bind, pure, esh_signal_block_SIGCHLD, sys_fork,
    next_rc, emit, cleanup_pipes, close_pipes, with_status, get_jobs, set_jobs, after_push,
    notify_background, print_lines, esh_signal_unblock_SIGCHLD, first_numJobs, c_int, Shell.init,
    Ctl.state, printed, job_status_values.val, c_enum, c_lor, h2]

/-- Claim C5 fails, in each of its two parts.  At the command line `jobs ; sleep 20 &`
typed into a fresh shell both iterations find the job table empty, the first assigns
jid 1 and the second jid 2, not 1.  After `sleep 10 & sleep 20 & sleep 30 &` (the parser
leaving 0 in the jid it does not set) the table holds the jids 1, 0; the same line typed
again assigns 1, which does not exceed the jid 1 in the table.  At
`sleep 10 & sleep 20 & sleep 30 & sleep 40 &` typed into a fresh shell (the parser
leaving 7) the third iteration finds jids 1, 7 in the table and assigns 3, which is not
`last.jid + 1` and does not exceed 7. -/
theorem jid_not_recomputed :
    (run_line (world fun n => (100 + n, 0))
        (some [parsed 0 ["jobs"] false, parsed 0 ["sleep", "20"] true]) Shell.init).map
      (fun r => r.1.map (fun it => (it.jobs_before, it.pipeline.jid,
        first_numJobs it.jobs_before)))
      = some [([], 1, 1), ([], 2, 1)]
    ∧ jobs_after (world fun n => (100 + n, 0)) [.line (some (three_background 0))]
        = some [sleep_job 1 100 "10" job_status.BACKGROUND true, parsed 0 ["sleep", "20"] true]
    ∧ (run_line (world fun n => (100 + n, 0)) (some (three_background 0))
          ⟨[sleep_job 1 100 "10" job_status.BACKGROUND true, parsed 0 ["sleep", "20"] true], [],
            false, true, 2, 0, 6⟩).map
        (fun r => r.1.map (fun it => (it.jobs_before.map esh_pipeline.jid, it.pipeline.jid)))
      = some [([1, 0], 1), ([1, 0, 1], 2)]
    ∧ (run_line (world fun n => (100 + n, 0))
        (some [parsed 7 ["sleep", "10"] true, parsed 7 ["sleep", "20"] true,
          parsed 7 ["sleep", "30"] true, parsed 7 ["sleep", "40"] true]) Shell.init).map
      (fun r => r.1.map (fun it => (it.jobs_before.map esh_pipeline.jid, it.pipeline.jid,
        first_numJobs it.jobs_before)))
      = some [([], 1, 1), ([1], 2, 2), ([1, 7], 3, 8)] := by
  refine ⟨?_, ?_, ?_, ?_⟩
  · simp [parsed, run_line, line_fuel, pipes_loop, run_pipeline, run_commands, run_command,
      run_plugins, run_builtin, run_showJobs, showJobs, world, esh_isBuiltIn, argv_at, bind,
      M.bind, pure, esh_signal_block_SIGCHLD, sys_fork, next_rc, emit, cleanup_pipes,
      close_pipes, with_status, get_jobs, set_jobs, after_push, notify_background, print_lines,
      esh_signal_unblock_SIGCHLD, first_numJobs, c_int, Shell.init]
  · simp [jobs_after, shell_after, three_background, parsed, sleep_job, run_line, line_fuel,
      pipes_loop, run_pipeline, run_commands, run_command, run_plugins, world, esh_isBuiltIn,
      argv_at, bind, M.bind, pure, esh_signal_block_SIGCHLD, sys_fork, next_rc, emit,
      cleanup_pipes, close_pipes, with_status, get_jobs, set_jobs, after_push,
      notify_background, print_lines, esh_signal_unblock_SIGCHLD, first_numJobs, c_int,
      Shell.init]
  · simp [three_background, parsed, sleep_job, run_line, line_fuel, pipes_loop, run_pipeline,
      run_commands, run_command, run_plugins, world, esh_isBuiltIn, argv_at, bind,
      M.bind, pure, esh_signal_block_SIGCHLD, sys_fork, next_rc, emit, cleanup_pipes,
      close_pipes, with_status, get_jobs, set_jobs, after_push, notify_background, print_lines,
      esh_signal_unblock_SIGCHLD, first_numJobs, c_int]
  · simp [parsed, run_line, line_fuel, pipes_loop, run_pipeline, run_commands, run_command,
      run_plugins, world, esh_isBuiltIn, argv_at, bind,
      M.bind, pure, esh_signal_block_SIGCHLD, sys_fork, next_rc, emit, cleanup_pipes,
      close_pipes, with_status, get_jobs, set_jobs, after_push, notify_background, print_lines,
      esh_signal_unblock_SIGCHLD, first_numJobs, c_int, Shell.init]

/-- Claim C6, at the command line `sleep 10 & sleep 20 & sleep 30 &` typed twice into a
fresh shell, whatever value `x` the parser leaves in the jid of the pipelines it builds:
each line moves its second pipeline, whose jid was never assigned, to the job table, and
the table ends with the jids `1, x, x + 1, x` (`x + 1` as an `int`). -/
theorem duplicate_jids (x : Int) :
    (jobs_after (world fun n => (100 + n, 0))
        [.line (some (three_background x)), .line (some (three_background x))]).map
      (fun jobs => jobs.map esh_pipeline.jid)
      = some [1, x, c_int (x + 1), x] := by
  simp [jobs_after, shell_after, three_background, parsed, run_line, line_fuel, pipes_loop,
    run_pipeline, run_commands, run_command, run_plugins, world, esh_isBuiltIn, argv_at, bind,
    M.bind, pure, esh_signal_block_SIGCHLD, sys_fork, next_rc, emit, cleanup_pipes,
    close_pipes, with_status, get_jobs, set_jobs, after_push, notify_background, print_lines,
    esh_signal_unblock_SIGCHLD, first_numJobs, c_int, Shell.init]

/-- Claim C7, at the command lines `sleep 30` and `sleep 40` typed into a fresh shell, each
child being killed by SIGINT (wait status 2) while in the foreground: both jobs stay in
the job table with status FOREGROUND. -/
theorem two_foreground_jobs :
    jobs_after (world fun n => (100 + n, 2))
        [.line (some [parsed 0 ["sleep", "30"] false]),
         .line (some [parsed 0 ["sleep", "40"] false])]
      = some [sleep_job 1 100 "30" job_status.FOREGROUND false,
              sleep_job 2 101 "40" job_status.FOREGROUND false] := by
  simp [jobs_after, shell_after, parsed, sleep_job, run_line, line_fuel, pipes_loop,
    run_pipeline, run_commands, run_command, run_plugins, world, esh_isBuiltIn, argv_at, bind,
    M.bind, pure, esh_signal_block_SIGCHLD, sys_fork, next_rc, emit, cleanup_pipes,
    close_pipes, with_status, get_jobs, set_jobs, after_push, wait_foreground,
    give_terminal_to, sys_waitpid, report_wait_error, run_possible_job_update,
    possible_job_update, WIFEXITED, WIFSTOPPED, print_lines, esh_signal_unblock_SIGCHLD,
    first_numJobs, c_int, Shell.init]

/-- Claim C9, at the command line `sleep 10 & sleep 20 & sleep 30 &` typed into a fresh
shell: the second iteration forks `sleep 30` (jid 2, group 101) and prints `[2] 101`, but
the element moved to the job table is the pipeline `sleep 20` as the parser left it. -/
theorem appended_job_not_forked (x : Int) :
    (run_line (world fun n => (100 + n, 0)) (some (three_background x)) Shell.init).map
      (fun r => (r.1.map (fun it => (it.forked, it.pushed)), r.2.state.jobs_list,
        printed r.2.state.log))
      = some ([(some (sleep_job 1 100 "10" job_status.BACKGROUND true),
                some (sleep_job 1 100 "10" job_status.BACKGROUND true)),
               (some (sleep_job 2 101 "30" job_status.BACKGROUND true),
                some (parsed x ["sleep", "20"] true))],
              [sleep_job 1 100 "10" job_status.BACKGROUND true, parsed x ["sleep", "20"] true],
              ["[1] 100\n", "[2] 101\n"]) := by
  simp [three_background, parsed, sleep_job, run_line, line_fuel, pipes_loop,
    run_pipeline, run_commands, run_command, run_plugins, world, esh_isBuiltIn, argv_at, bind,
    M.bind, pure, esh_signal_block_SIGCHLD, sys_fork, next_rc, emit, cleanup_pipes,
    close_pipes, with_status, get_jobs, set_jobs, after_push, notify_background, print_lines,
    esh_signal_unblock_SIGCHLD, first_numJobs, c_int, Shell.init, Ctl.state, printed, fmt_d]
  constructor <;> decide

/-- Claim C10, at the command line `sleep 10 & sleep 20 &` typed into a fresh shell: the
pipeline loop runs one iteration, for `sleep 10`, and one child is forked; `sleep 20` is
never run. -/
theorem second_pipeline_not_launched :
    (run_line (world fun n => (100 + n, 0))
        (some [parsed 0 ["sleep", "10"] true, parsed 0 ["sleep", "20"] true]) Shell.init).map
      (fun r => (r.1.map (fun it => it.pipeline.commands), forked_commands r.2.state.log,
        r.2.state.jobs_list))
      = some ([[⟨["sleep", "10"], none, none, false⟩]], [⟨["sleep", "10"], none, none, false⟩],
          [sleep_job 1 100 "10" job_status.BACKGROUND true]) := by
  decide

/-! ## Fork failure, the foreground wait and `fg` -/

/-- The search by jid finds nothing when no job has that jid. -/
theorem find_job_none (jobID : Int) (jobs : List esh_pipeline)
    (h : ∀ j ∈ jobs, j.jid ≠ jobID) : find_job jobID jobs = none := by
  induction jobs with
  | nil => rfl
  | cons job rest ih =>
    have h1 : job.jid ≠ jobID := h job (List.mem_cons_self _ _)
    have h2 := ih (fun j hj => h j (List.mem_cons_of_mem _ hj))
    simp [find_job, h1, h2]

/-- A stage that no plug-in handles, that is not a built-in and whose `fork` fails:
the message is printed and `main` returns -1, with the job table as it was. -/
theorem run_command_fork_fails (w : World) (cmd : esh_command) (loc : Locals) (st : Shell)
    (hplug : run_plugins cmd w.esh_plugin_list loc.ranPlugin = false)
    (hb : esh_isBuiltIn (argv_at cmd 0) = false) (hfork : w.fork st.nfork < 0) :
    run_command w cmd loc st
      = .exited (-1)
          { st with sigchld_blocked := true,
                    log := st.log ++ [Event.block_SIGCHLD, Event.fork (w.fork st.nfork) cmd,
                      Event.printf "There was an error forking the child process\n"],
                    nfork := st.nfork + 1 } := by
  have h0 : w.fork st.nfork ≠ 0 := by omega
  simp [run_command, hplug, hb, bind, M.bind, esh_signal_block_SIGCHLD, sys_fork, h0, hfork,
    print_lines, exit_shell]

/-- The command loop ends where one of its stages ends the shell. -/
theorem run_commands_exited (w : World) (pre post : List esh_command) (cmd : esh_command) :
    ∀ (loc loc2 : Locals) (st st2 st3 : Shell) (code : Int),
      run_commands w pre loc st = .running loc2 st2 →
      run_command w cmd loc2 st2 = .exited code st3 →
      run_commands w (pre ++ cmd :: post) loc st = .exited code st3 := by
  induction pre with
  | nil =>
    intro loc loc2 st st2 st3 code hpre hcmd
    simp only [run_commands, pure] at hpre
    cases hpre
    simp [run_commands, bind, M.bind, hcmd]
  | cons c rest ih =>
    intro loc loc2 st st2 st3 code hpre hcmd
    simp only [run_commands, bind, M.bind, List.cons_append] at hpre ⊢
    cases hc : run_command w c loc st with
    | exited code1 st1 => rw [hc] at hpre; cases hpre
    | running loc1 st1 =>
      rw [hc] at hpre
      simp only at hpre ⊢
      exact ih loc1 loc2 st1 st2 st3 code hpre hcmd

/-- Claim C11 fails at the command lines `sleep 10` and `sleep 20 &` typed into a fresh
shell whose first `fork` fails: the message is printed, no job is recorded, and the shell
has ended with -1 without running the second line. -/
theorem fork_failure_terminates_shell :
    shell_after { world (fun n => (100 + n, 0)) with fork := fun _ => -1 }
        [.line (some [parsed 0 ["sleep", "10"] false]),
         .line (some [parsed 0 ["sleep", "20"] true])] Shell.init
      = some (.exited (-1)
          ⟨[], [Event.sethandler_SIGCHLD, Event.block_SIGCHLD,
                Event.fork (-1) ⟨["sleep", "10"], none, none, false⟩,
                Event.printf "There was an error forking the child process\n"],
            true, true, 1, 0, 0⟩) := by
  simp [shell_after, parsed, run_line, line_fuel, pipes_loop, run_pipeline, run_commands,
    run_command, run_plugins, world, esh_isBuiltIn, argv_at, bind, M.bind, pure,
    esh_signal_block_SIGCHLD, sys_fork, print_lines, exit_shell, first_numJobs, c_int, Shell.init]

/-- Claim C11 as amended: in any iteration of the pipeline loop, when the stages before
stage `cmd` of the pipeline have run and the `fork` for `cmd` (not handled by a plug-in,
not a built-in) fails, the shell prints the message, the job table stays as those stages
left it (no job is recorded for the pipeline), and `main` returns -1: the loop and the
shell end there. -/
theorem fork_failure_ends_shell (w : World) (fuel : Nat) (pipes : List esh_pipeline) (i : Nat)
    (numJobs : Int) (st st2 : Shell) (p : esh_pipeline) (pre post : List esh_command)
    (cmd : esh_command) (loc2 : Locals)
    (hget : pipes.get? i = some p) (hcmds : p.commands = pre ++ cmd :: post)
    (hpre : run_commands w pre ⟨{ p with jid := numJobs, pgrp := -1 }, false, false,
      w.uninit_pid, 0⟩ st = .running loc2 st2)
    (hplug : run_plugins cmd w.esh_plugin_list loc2.ranPlugin = false)
    (hb : esh_isBuiltIn (argv_at cmd 0) = false) (hfork : w.fork st2.nfork < 0) :
    pipes_loop w (fuel + 1) pipes i numJobs st
      = some ([⟨st.jobs_list, { p with jid := numJobs, pgrp := -1 }, none, none⟩],
          .exited (-1)
            { st2 with sigchld_blocked := true,
                       log := st2.log ++ [Event.block_SIGCHLD, Event.fork (w.fork st2.nfork) cmd,
                         Event.printf "There was an error forking the child process\n"],
                       nfork := st2.nfork + 1 }) := by
  have hcmd := run_command_fork_fails w cmd loc2 st2 hplug hb hfork
  have hall := run_commands_exited w pre post cmd _ loc2 st st2 _ (-1) hpre hcmd
  rw [← hcmds] at hall
  have hrun : run_pipeline w pipes i { p with jid := numJobs, pgrp := -1 } st
      = .exited (-1)
          { st2 with sigchld_blocked := true,
                     log := st2.log ++ [Event.block_SIGCHLD, Event.fork (w.fork st2.nfork) cmd,
                       Event.printf "There was an error forking the child process\n"],
                     nfork := st2.nfork + 1 } := by
    unfold run_pipeline
    simp only [bind, M.bind, hall]
  simp only [pipes_loop, hget, hrun]

/-- Claim C11 as amended, at the pipeline `ls | wc` typed into a fresh shell whose second
`fork` fails. -/
theorem fork_failure_ends_shell_witness :
    pipes_loop { world (fun n => (100 + n, 0)) with fork := fun n => if n = 0 then 100 else -1 }
        3
        [⟨[⟨["ls"], none, none, false⟩, ⟨["wc"], none, none, false⟩], 0, 0,
          job_status.FOREGROUND, false⟩] 0 1
        ⟨[], [Event.sethandler_SIGCHLD], false, true, 0, 0, 0⟩
      = some ([⟨[], ⟨[⟨["ls"], none, none, false⟩, ⟨["wc"], none, none, false⟩], 1, -1,
            job_status.FOREGROUND, false⟩, none, none⟩],
          .exited (-1)
            ⟨[], [Event.sethandler_SIGCHLD, Event.block_SIGCHLD,
                Event.fork 100 ⟨["ls"], none, none, false⟩, Event.setpgid 100 100,
                Event.block_SIGCHLD, Event.fork (-1) ⟨["wc"], none, none, false⟩,
                Event.printf "There was an error forking the child process\n"],
              true, true, 2, 0, 2⟩) :=
  fork_failure_ends_shell
    { world (fun n => (100 + n, 0)) with fork := fun n => if n = 0 then 100 else -1 } 2
    [⟨[⟨["ls"], none, none, false⟩, ⟨["wc"], none, none, false⟩], 0, 0,
      job_status.FOREGROUND, false⟩] 0 1
    ⟨[], [Event.sethandler_SIGCHLD], false, true, 0, 0, 0⟩
    ⟨[], [Event.sethandler_SIGCHLD, Event.block_SIGCHLD,
        Event.fork 100 ⟨["ls"], none, none, false⟩, Event.setpgid 100 100], true, true, 1, 0, 2⟩
    ⟨[⟨["ls"], none, none, false⟩, ⟨["wc"], none, none, false⟩], 0, 0,
      job_status.FOREGROUND, false⟩
    [⟨["ls"], none, none, false⟩] [] ⟨["wc"], none, none, false⟩
    ⟨⟨[⟨["ls"], none, none, false⟩, ⟨["wc"], none, none, false⟩], 1, 100,
      job_status.FOREGROUND, false⟩, false, false, 100, 1⟩
    rfl rfl (by decide) (by decide) (by decide) (by decide)

/-- Claim C13, at the foreground pipeline `echo hello | tr a-z A-Z` typed into a fresh
shell (children 100 and 101, group 100): the launcher waits for the last child, 101, not
for `pipeline->pgrp`; the wait reports the normal exit of 101, `possible_job_update`
finds no job of group 101, and the job is still in the table, FOREGROUND, when SIGCHLD
is unblocked and the iteration ends. -/
theorem foreground_wait_targets_last_child :
    (run_line (world fun _ => (101, 0))
        (some [⟨[⟨["echo", "hello"], none, none, false⟩, ⟨["tr", "a-z", "A-Z"], none, none, false⟩],
          0, 0, job_status.FOREGROUND, false⟩]) Shell.init).map
      (fun r => (r.2.state.log, r.2.state.jobs_list, r.2.state.sigchld_blocked))
      = some ([Event.sethandler_SIGCHLD,
               Event.block_SIGCHLD, Event.fork 100 ⟨["echo", "hello"], none, none, false⟩,
               Event.setpgid 100 100,
               Event.block_SIGCHLD, Event.fork 101 ⟨["tr", "a-z", "A-Z"], none, none, false⟩,
               Event.setpgid 101 100,
               Event.tcsetpgrp 100, Event.waitpid 101, Event.tcsetpgrp 50,
               Event.unblock_SIGCHLD],
              [⟨[⟨["echo", "hello"], none, none, false⟩,
                 ⟨["tr", "a-z", "A-Z"], none, none, false⟩], 1, 100, job_status.FOREGROUND, false⟩],
              false) := by
  simp [run_line, line_fuel, pipes_loop, run_pipeline, run_commands, run_command, run_plugins,
    world, esh_isBuiltIn, argv_at, bind, M.bind, pure, esh_signal_block_SIGCHLD, sys_fork,
    next_rc, emit, cleanup_pipes, close_pipes, with_status, get_jobs, set_jobs, after_push,
    wait_foreground, give_terminal_to, sys_waitpid, report_wait_error,
    run_possible_job_update, possible_job_update, possible_job_update_exited, WIFEXITED,
    print_lines, esh_signal_unblock_SIGCHLD, first_numJobs, c_int, Shell.init, Ctl.state]

/-- When `fg` finds the job and no call fails, it returns with SIGCHLD unblocked: the
`esh_signal_unblock` of line 283 is reached. -/
theorem fg_known_jid_unblocks (w : World) (st : Shell) (jobID : Int)
    (before after : List esh_pipeline) (job : esh_pipeline)
    (hjobs : st.jobs_list = before ++ job :: after) (hb : ∀ j ∈ before, j.jid ≠ jobID)
    (hj : job.jid = jobID) (hkill : 0 ≤ w.rc st.nrc) (htc1 : w.rc (st.nrc + 1) ≠ -1)
    (htc2 : w.rc (st.nrc + 2) ≠ -1) :
    ∃ st1, fg w jobID st = .running () st1 ∧ st1.sigchld_blocked = false := by
  have hk : ¬ w.rc st.nrc < 0 := not_lt.mpr hkill
  by_cases hr : (w.waitpid st.nwait).1 < 0 <;>
    simp [fg, bind, M.bind, pure, esh_signal_block_SIGCHLD, get_jobs, hjobs,
      find_job_first jobID before after job hb hj, print_lines, set_jobs, sys_kill, emit,
      next_rc, hk, give_terminal_to, htc1, htc2, sys_waitpid, report_wait_error, hr,
      run_possible_job_update, esh_signal_unblock_SIGCHLD]

/-- Claim C14, for every job table without a job of that jid: `fg` blocks SIGCHLD, finds
no job and returns without unblocking it. -/
theorem fg_unknown_jid_leaves_blocked (w : World) (st : Shell) (jobID : Int)
    (h : ∀ j ∈ st.jobs_list, j.jid ≠ jobID) :
    fg w jobID st
      = .running () { st with sigchld_blocked := true,
                              log := st.log ++ [Event.block_SIGCHLD] } := by
  simp [fg, bind, M.bind, pure, esh_signal_block_SIGCHLD, get_jobs,
    find_job_none jobID st.jobs_list h]

/-- Claim C14 at `fg 5` with the job table holding only job 1, SIGCHLD unblocked: it is
blocked when `fg` returns. -/
theorem fg_unknown_jid_leaves_blocked_witness :
    fg (world fun n => (100 + n, 0)) 5
        ⟨[sleep_job 1 100 "60" job_status.BACKGROUND true], [], false, true, 1, 0, 3⟩
      = .running ()
          ⟨[sleep_job 1 100 "60" job_status.BACKGROUND true], [Event.block_SIGCHLD], true, true,
            1, 0, 3⟩ :=
  fg_unknown_jid_leaves_blocked (world fun n => (100 + n, 0))
    ⟨[sleep_job 1 100 "60" job_status.BACKGROUND true], [], false, true, 1, 0, 3⟩ 5 (by decide)

/-! ## Redirection and pipe wiring in the child -/

/-- Claim C12 fails at `ls > out.txt | sort < in.txt`: the first child writes to the
pipe, not to `out.txt`, and the second child reads from the pipe, not from `in.txt`. -/
theorem pipe_overrides_redirection :
    (pipeline_fds (fun _ => true)
        ⟨[⟨["ls"], none, some "out.txt", false⟩, ⟨["sort"], some "in.txt", none, false⟩], 1, -1,
          job_status.FOREGROUND, false⟩ shell_fds).map stdio
      = [some (some (.inherited 0), some (.pipe_write 0)),
         some (some (.pipe_read 0), some (.inherited 1))] := by
  decide

/-- Reading a descriptor after one was set. -/
theorem fd_get_set (t : List (Option File)) :
    ∀ (i : Nat) (f : Option File) (j : Nat),
      fd_get (fd_set t i f) j = if j = i then f else fd_get t j := by
  induction t with
  | nil =>
    intro i
    induction i with
    | zero =>
      intro f j
      cases j <;> simp [fd_set, fd_get]
    | succ i ih =>
      intro f j
      cases j with
      | zero => simp [fd_set, fd_get]
      | succ j => simp [fd_set, fd_get, ih f j]
  | cons g t ih =>
    intro i f j
    cases i with
    | zero => cases j <;> simp [fd_set, fd_get]
    | succ i =>
      cases j with
      | zero => simp [fd_set, fd_get]
      | succ j => simp [fd_set, fd_get, ih i f j]

/-- The lowest free descriptor is not open. -/
theorem fd_get_lowest_free (t : List (Option File)) : fd_get t (lowest_free t) = none := by
  induction t with
  | nil => rfl
  | cons g t ih =>
    cases g with
    | none => rfl
    | some f => simpa [lowest_free, fd_get] using ih

/-- An open descriptor is not the one `open` or `pipe` returns. -/
theorem lowest_free_ne (t : List (Option File)) (j : Nat) (f : File)
    (h : fd_get t j = some f) : lowest_free t ≠ j := by
  intro he
  rw [← he, fd_get_lowest_free] at h
  cases h

/-- The input redirection sets standard input and leaves every other open descriptor. -/
theorem child_input_ok (can_open : String → Bool) (cmd : esh_command)
    (t : List (Option File)) (a : File) (h0 : fd_get t 0 = some a)
    (hopen : ∀ name, cmd.iored_input = some name → can_open name = true) :
    ∃ t3, child_input can_open cmd t = .ok t3
      ∧ fd_get t3 0 = some (match cmd.iored_input with
          | some name => .path name .rdonly
          | none => a)
      ∧ ∀ j f, j ≠ 0 → fd_get t j = some f → fd_get t3 j = some f := by
  unfold child_input
  cases hin : cmd.iored_input with
  | none => exact ⟨t, rfl, h0, fun j f _ h => h⟩
  | some name =>
    have hfree : lowest_free t ≠ 0 := lowest_free_ne t 0 a h0
    have hfree2 : (0 : Nat) ≠ lowest_free t := fun h => hfree h.symm
    simp only [fd_open, hopen name hin, if_true, fd_dup2, fd_close, fd_get_set, hfree, hfree2,
      if_false]
    refine ⟨_, rfl, ?_, ?_⟩
    · simp [fd_get_set, hfree2]
    · intro j f hj h
      have hjf : j ≠ lowest_free t := fun he => lowest_free_ne t j f h he.symm
      simp [fd_get_set, hj, hjf, h]

/-- The output redirection sets standard output and leaves every other open descriptor. -/
theorem child_output_ok (can_open : String → Bool) (cmd : esh_command)
    (t : List (Option File)) (b : File) (h1 : fd_get t 1 = some b)
    (hopen : ∀ name, cmd.iored_output = some name → can_open name = true) :
    ∃ t3, child_output can_open cmd t = .ok t3
      ∧ fd_get t3 1 = some (match cmd.iored_output with
          | some name => .path name (if cmd.append_to_output then .append else .trunc)
          | none => b)
      ∧ ∀ j f, j ≠ 1 → fd_get t j = some f → fd_get t3 j = some f := by
  unfold child_output
  cases hout : cmd.iored_output with
  | none => exact ⟨t, rfl, h1, fun j f _ h => h⟩
  | some name =>
    have hfree : lowest_free t ≠ 1 := lowest_free_ne t 1 b h1
    have hfree2 : (1 : Nat) ≠ lowest_free t := fun h => hfree h.symm
    simp only [fd_open, hopen name hout, if_true, fd_dup2, fd_close, fd_get_set, hfree, hfree2,
      if_false]
    refine ⟨_, rfl, ?_, ?_⟩
    · simp [fd_get_set, hfree2]
    · intro j f hj h
      have hjf : j ≠ lowest_free t := fun he => lowest_free_ne t j f h he.symm
      simp [fd_get_set, hj, hjf, h]

/-- The pipe wiring makes standard input what `fd2` refers to and, for a stage that is
not the last one, standard output the write end of the pipe. -/
theorem child_pipes_ok (fd2 r w : Nat) (not_last piped : Bool) (t : List (Option File))
    (c b pr pw : File) (hc : fd_get t fd2 = some c) (hb : fd_get t 1 = some b)
    (hr : fd_get t r = some pr) (hw : fd_get t w = some pw)
    (hrw : r ≠ w) (hr0 : r ≠ 0) (hr1 : r ≠ 1) (hw0 : w ≠ 0) (hw1 : w ≠ 1) :
    ∃ t3, child_pipes fd2 (r, w) not_last piped t = .ok t3
      ∧ fd_get t3 0 = some c
      ∧ fd_get t3 1 = some (if not_last && piped then pw else b) := by
  have h01 : (1 : Nat) ≠ 0 := by decide
  have hwr : w ≠ r := fun h => hrw h.symm
  have hr0s : (0 : Nat) ≠ r := fun h => hr0 h.symm
  have hr1s : (1 : Nat) ≠ r := fun h => hr1 h.symm
  have hw0s : (0 : Nat) ≠ w := fun h => hw0 h.symm
  have hw1s : (1 : Nat) ≠ w := fun h => hw1 h.symm
  unfold child_pipes child_pipe_out child_close
  cases hcond : (not_last && piped)
  · simp only [fd_dup2, fd_close, hc, Bool.false_eq_true, if_false, fd_get_set, hw0, hw, hr0,
      hr, hwr]
    refine ⟨_, rfl, ?_, ?_⟩ <;> simp [fd_get_set, hr0s, hr1s, hw0s, hw1s, h01, hb]
  · simp only [fd_dup2, fd_close, hc, if_true, fd_get_set, hw0, hw, hr1, hr0, hr,
      hwr, hw1, if_false]
    refine ⟨_, rfl, ?_, ?_⟩ <;> simp [fd_get_set, hr0s, hr1s, hw0s, hw1s]

/-- The child of a stage reaches `execvp` with standard input what `fd2` refers to (the
redirected or inherited input when `fd2` is 0) and standard output the write end of the
pipe when the stage is not the last one, the redirected or inherited output otherwise. -/
theorem child_fds_ok (can_open : String → Bool) (cmd : esh_command) (fd2 r w : Nat)
    (not_last piped : Bool) (t : List (Option File)) (a b c pr pw : File)
    (h0 : fd_get t 0 = some a) (h1 : fd_get t 1 = some b)
    (hfd2 : fd2 = 0 ∨ (fd2 ≠ 0 ∧ fd2 ≠ 1 ∧ fd_get t fd2 = some c))
    (hr : fd_get t r = some pr) (hw : fd_get t w = some pw)
    (hrw : r ≠ w) (hr0 : r ≠ 0) (hr1 : r ≠ 1) (hw0 : w ≠ 0) (hw1 : w ≠ 1)
    (hin : ∀ name, cmd.iored_input = some name → can_open name = true)
    (hout : ∀ name, cmd.iored_output = some name → can_open name = true) :
    ∃ t3, child_fds can_open cmd fd2 (r, w) not_last piped t = .ok t3
      ∧ fd_get t3 0 = some (if fd2 = 0 then
          (match cmd.iored_input with
            | some name => .path name .rdonly
            | none => a)
          else c)
      ∧ fd_get t3 1 = some (if not_last && piped then pw else
          (match cmd.iored_output with
            | some name => .path name (if cmd.append_to_output then .append else .trunc)
            | none => b)) := by
  obtain ⟨t1, e1, g1, f1⟩ := child_input_ok can_open cmd t a h0 hin
  obtain ⟨t2, e2, g2, f2⟩ :=
    child_output_ok can_open cmd t1 b (f1 1 b (by decide) h1) hout
  have hc : fd_get t2 fd2 = some (if fd2 = 0 then
      (match cmd.iored_input with
        | some name => File.path name OpenMode.rdonly
        | none => a)
      else c) := by
    rcases hfd2 with h | ⟨h0', h1', hc'⟩
    · subst h
      simpa using f2 0 _ (by decide) g1
    · simp only [h0', if_false]
      exact f2 fd2 c h1' (f1 fd2 c h0' hc')
  obtain ⟨t3, e3, g3, g4⟩ := child_pipes_ok fd2 r w not_last piped t2 _ _ pr pw hc g2
    (f2 r pr hr1 (f1 r pr hr0 hr)) (f2 w pw hw1 (f1 w pw hw0 hw)) hrw hr0 hr1 hw0 hw1
  refine ⟨t3, ?_, g3, g4⟩
  unfold child_fds
  rw [e1]
  simp only
  rw [e2]
  simp only
  exact e3

/-- Stage by stage, from any shell table in which descriptors 0 and 1 are open: the
child of each stage reaches `execvp` with the standard input and output of `stage_stdin`
and `stage_stdout`. -/
theorem stage_fds_ok (can_open : String → Bool) (piped : Bool) :
    ∀ (cmds : List esh_command) (k0 fd2 : Nat) (t : List (Option File)),
      fd_get t 0 = some (.inherited 0) → fd_get t 1 = some (.inherited 1) →
      (k0 = 0 → fd2 = 0) →
      (k0 ≠ 0 → fd2 ≠ 0 ∧ fd2 ≠ 1 ∧ fd_get t fd2 = some (.pipe_read (k0 - 1))) →
      (2 ≤ k0 + cmds.length → piped = true) →
      (∀ c ∈ cmds, (∀ name, c.iored_input = some name → can_open name = true)
        ∧ (∀ name, c.iored_output = some name → can_open name = true)) →
      ∀ (j : Nat) (cmd : esh_command), cmds.get? j = some cmd →
        ∃ t3, (stage_fds can_open piped k0 cmds fd2 t).get? j = some (.ok t3)
          ∧ fd_get t3 0 = some (stage_stdin (k0 + j) cmd)
          ∧ fd_get t3 1 = some (stage_stdout (k0 + j) (decide (j + 1 = cmds.length)) cmd) := by
  intro cmds
  induction cmds with
  | nil => intro k0 fd2 t _ _ _ _ _ _ j cmd hj; simp at hj
  | cons c rest ih =>
    intro k0 fd2 t h0 h1 hk0 hk1 hp hopen j cmd hj
    have hr0 : lowest_free t ≠ 0 := lowest_free_ne t 0 _ h0
    have hr1 : lowest_free t ≠ 1 := lowest_free_ne t 1 _ h1
    have hr0s : (0 : Nat) ≠ lowest_free t := fun h => hr0 h.symm
    have hr1s : (1 : Nat) ≠ lowest_free t := fun h => hr1 h.symm
    have h0' : fd_get (fd_set t (lowest_free t) (some (.pipe_read k0))) 0
        = some (.inherited 0) := by
      rw [fd_get_set]; simp [hr0s, h0]
    have h1' : fd_get (fd_set t (lowest_free t) (some (.pipe_read k0))) 1
        = some (.inherited 1) := by
      rw [fd_get_set]; simp [hr1s, h1]
    have hrr : fd_get (fd_set t (lowest_free t) (some (.pipe_read k0))) (lowest_free t)
        = some (.pipe_read k0) := by
      rw [fd_get_set]; simp
    have hw0 := lowest_free_ne _ 0 _ h0'
    have hw1 := lowest_free_ne _ 1 _ h1'
    have hwr := lowest_free_ne _ _ _ hrr
    have hw0s : (0 : Nat) ≠ lowest_free (fd_set t (lowest_free t) (some (.pipe_read k0))) :=
      fun h => hw0 h.symm
    have hw1s : (1 : Nat) ≠ lowest_free (fd_set t (lowest_free t) (some (.pipe_read k0))) :=
      fun h => hw1 h.symm
    have hrw : lowest_free t ≠ lowest_free (fd_set t (lowest_free t) (some (.pipe_read k0))) :=
      fun h => hwr h.symm
    cases j with
    | zero =>
      simp only [List.get?_cons_zero, Option.some.injEq] at hj
      subst hj
      have hfd2 : fd2 = 0 ∨ (fd2 ≠ 0 ∧ fd2 ≠ 1
          ∧ fd_get (fd_set (fd_set t (lowest_free t) (some (.pipe_read k0)))
              (lowest_free (fd_set t (lowest_free t) (some (.pipe_read k0))))
              (some (.pipe_write k0))) fd2 = some (.pipe_read (k0 - 1))) := by
        by_cases hk : k0 = 0
        · exact Or.inl (hk0 hk)
        · obtain ⟨a1, a2, a3⟩ := hk1 hk
          have hne1 : fd2 ≠ lowest_free t := fun he => lowest_free_ne t fd2 _ a3 he.symm
          have a4 : fd_get (fd_set t (lowest_free t) (some (.pipe_read k0))) fd2
              = some (.pipe_read (k0 - 1)) := by
            rw [fd_get_set]; simp [hne1, a3]
          have hne2 : fd2 ≠ lowest_free (fd_set t (lowest_free t) (some (.pipe_read k0))) :=
            fun he => lowest_free_ne _ fd2 _ a4 he.symm
          refine Or.inr ⟨a1, a2, ?_⟩
          rw [fd_get_set]
          simp [hne2, a4]
      obtain ⟨t3, e3, g0, g1⟩ := child_fds_ok can_open c fd2 (lowest_free t)
        (lowest_free (fd_set t (lowest_free t) (some (.pipe_read k0)))) (!rest.isEmpty) piped
        (fd_set (fd_set t (lowest_free t) (some (.pipe_read k0)))
          (lowest_free (fd_set t (lowest_free t) (some (.pipe_read k0))))
          (some (.pipe_write k0)))
        (.inherited 0) (.inherited 1) (.pipe_read (k0 - 1)) (.pipe_read k0) (.pipe_write k0)
        (by rw [fd_get_set]; simp [hw0s, h0'])
        (by rw [fd_get_set]; simp [hw1s, h1'])
        hfd2
        (by rw [fd_get_set]; simp [hrw, hrr])
        (by rw [fd_get_set]; simp)
        hrw hr0 hr1 hw0 hw1
        (hopen c (List.mem_cons_self _ _)).1 (hopen c (List.mem_cons_self _ _)).2
      refine ⟨t3, ?_, ?_, ?_⟩
      · simp only [stage_fds, List.get?_cons_zero]
        rw [e3]
      · rw [g0]
        unfold stage_stdin
        by_cases hk : k0 = 0
        · simp [hk, hk0 hk]
        · simp [hk, (hk1 hk).1]
      · rw [g1]
        unfold stage_stdout
        cases rest with
        | nil => simp
        | cons c2 rest2 =>
          have hpt : piped = true := hp (by simp only [List.length_cons]; omega)
          simp [hpt]
    | succ j =>
      simp only [List.get?_cons_succ] at hj
      have hinv0 : fd_get (fd_set (fd_set (fd_set t (lowest_free t) (some (.pipe_read k0)))
          (lowest_free (fd_set t (lowest_free t) (some (.pipe_read k0))))
          (some (.pipe_write k0)))
          (lowest_free (fd_set t (lowest_free t) (some (.pipe_read k0)))) none) 0
          = some (.inherited 0) := by
        simp [fd_get_set, hw0s, hr0s, h0]
      have hinv1 : fd_get (fd_set (fd_set (fd_set t (lowest_free t) (some (.pipe_read k0)))
          (lowest_free (fd_set t (lowest_free t) (some (.pipe_read k0))))
          (some (.pipe_write k0)))
          (lowest_free (fd_set t (lowest_free t) (some (.pipe_read k0)))) none) 1
          = some (.inherited 1) := by
        simp [fd_get_set, hw1s, hr1s, h1]
      have hinvr : fd_get (fd_set (fd_set (fd_set t (lowest_free t) (some (.pipe_read k0)))
          (lowest_free (fd_set t (lowest_free t) (some (.pipe_read k0))))
          (some (.pipe_write k0)))
          (lowest_free (fd_set t (lowest_free t) (some (.pipe_read k0)))) none) (lowest_free t)
          = some (.pipe_read k0) := by
        simp [fd_get_set, hrw]
      obtain ⟨t3, e3, g0, g1⟩ := ih (k0 + 1) (lowest_free t) _ hinv0 hinv1
        (fun h => absurd h (Nat.succ_ne_zero k0))
        (fun _ => ⟨hr0, hr1, by simpa using hinvr⟩)
        (fun h => hp (by simp only [List.length_cons]; omega))
        (fun c2 hc2 => hopen c2 (List.mem_cons_of_mem _ hc2)) j cmd hj
      refine ⟨t3, ?_, ?_, ?_⟩
      · simp only [stage_fds, List.get?_cons_succ]
        exact e3
      · rw [g0]
        congr 2
        omega
      · rw [g1]
        have hk : k0 + 1 + j = k0 + (j + 1) := by omega
        rw [hk]
        congr 2
        simp

/-- Claim C12 as amended: for every pipeline of forked stages started from a shell in which
descriptors 0 and 1 are open, when every redirection file can be opened, the child of
stage `k` reaches `execvp` with standard input the previous stage's read end when
`k > 0`, whether or not the command has an input redirection, and otherwise the redirected
file or the shell's own standard input; and with standard output the write end of its
pipe when the stage is not the last one, whether or not the command has an output
redirection, and otherwise the redirected file or the shell's own standard output. -/
theorem child_stdio_wiring (can_open : String → Bool) (pipeline : esh_pipeline)
    (t : List (Option File)) (k : Nat) (cmd : esh_command)
    (h0 : fd_get t 0 = some (.inherited 0)) (h1 : fd_get t 1 = some (.inherited 1))
    (hopen : ∀ c ∈ pipeline.commands,
      (∀ name, c.iored_input = some name → can_open name = true)
        ∧ (∀ name, c.iored_output = some name → can_open name = true))
    (hk : pipeline.commands.get? k = some cmd) :
    ((pipeline_fds can_open pipeline t).get? k).map stdio
      = some (some (some (stage_stdin k cmd),
          some (stage_stdout k (decide (k + 1 = pipeline.commands.length)) cmd))) := by
  obtain ⟨t3, e3, g0, g1⟩ := stage_fds_ok can_open (decide (1 < pipeline.commands.length))
    pipeline.commands 0 0 t h0 h1 (fun _ => rfl) (fun h => absurd rfl h)
    (fun h => by simp only [decide_eq_true_eq]; omega) hopen k cmd hk
  unfold pipeline_fds
  rw [e3]
  simp only [Option.map_some', stdio, g0, g1, Nat.zero_add]

/-- Claim C12 as amended, at `sort < in.txt | uniq > out.txt`: the first child reads
`in.txt` and writes to the pipe, the second reads the pipe and writes `out.txt`. -/
theorem child_stdio_wiring_witness :
    ((pipeline_fds (fun _ => true)
        ⟨[⟨["sort"], some "in.txt", none, false⟩, ⟨["uniq"], none, some "out.txt", false⟩], 1, -1,
          job_status.FOREGROUND, false⟩ shell_fds).get? 0).map stdio
      = some (some (some (.path "in.txt" .rdonly), some (.pipe_write 0)))
    ∧ ((pipeline_fds (fun _ => true)
        ⟨[⟨["sort"], some "in.txt", none, false⟩, ⟨["uniq"], none, some "out.txt", false⟩], 1, -1,
          job_status.FOREGROUND, false⟩ shell_fds).get? 1).map stdio
      = some (some (some (.pipe_read 0), some (.path "out.txt" .trunc))) :=
  ⟨child_stdio_wiring (fun _ => true)
      ⟨[⟨["sort"], some "in.txt", none, false⟩, ⟨["uniq"], none, some "out.txt", false⟩], 1, -1,
        job_status.FOREGROUND, false⟩ shell_fds 0 ⟨["sort"], some "in.txt", none, false⟩ rfl rfl
      (fun _ _ => ⟨fun _ _ => rfl, fun _ _ => rfl⟩) rfl,
   child_stdio_wiring (fun _ => true)
      ⟨[⟨["sort"], some "in.txt", none, false⟩, ⟨["uniq"], none, some "out.txt", false⟩], 1, -1,
        job_status.FOREGROUND, false⟩ shell_fds 1 ⟨["uniq"], none, some "out.txt", false⟩ rfl rfl
      (fun _ _ => ⟨fun _ _ => rfl, fun _ _ => rfl⟩) rfl⟩

end Esh
